import Mathlib

/-!
Verification of the order-lifecycle / inventory-reservation engine of the
e-commerce backend (src/controllers/order.controller.js, the product model
src/unnamed/part_003, and the product controller src/unnamed/part_001).

The embedding is shallow and executable:

* JS numbers holding inventory counters and item quantities are `Int`
  (the controller freely subtracts, so in-memory values can go negative
  before a save is attempted); money amounts (prices, subtotal, tax,
  shipping cost, totals) are `Rat`, the exact-arithmetic idealization of
  JS floating point used throughout this development.
* The Mongo products collection is a `List Product`; `findById` is
  `List.find?` on the id and a save writes back by id.
* `Product.save()` is modelled by `productSave`: mongoose first runs the
  schema validators (`min: 0` on `inventory.quantity`, `inventory.reserved`
  and `inventory.available`, part_003 lines 42-57) and only then the
  `pre('save')` hook (part_003 lines 147-150) which recomputes
  `available = max 0 (quantity - reserved)`.  A failed validation rejects
  the save; the controller's surrounding try/catch turns that into a
  failed request, with all previously saved products kept (no rollback).
* Fallible controller actions return `Except ControllerError` paired with
  the resulting products collection (the collection is returned even on
  failure because saves performed before the failure persist).
-/

namespace ECom

/-- The `inventory` sub-document of a product (part_003 lines 42-57). -/
structure Inventory where
  quantity : Int
  reserved : Int
  available : Int
  deriving Repr, DecidableEq

/-- A product document; only the fields the order/inventory engine reads. -/
structure Product where
  id : Nat
  name : String
  price : Rat
  inventory : Inventory
  deriving Repr, DecidableEq

/-- Mongoose schema validation of the inventory counters: the three
`min: 0` validators of part_003 lines 42-57, run on `save()` before the
pre-save hook. -/
def invValid (inv : Inventory) : Prop :=
  0 ≤ inv.quantity ∧ 0 ≤ inv.reserved ∧ 0 ≤ inv.available

instance (inv : Inventory) : Decidable (invValid inv) := by
  unfold invValid; infer_instance

/-- The `pre('save')` hook of part_003 lines 147-150:
`this.inventory.available = Math.max(0, quantity - reserved)`. -/
def applyPreSave (p : Product) : Product :=
  { p with inventory :=
      { p.inventory with
          available := max 0 (p.inventory.quantity - p.inventory.reserved) } }

/-- `product.save()`: validators first (mongoose runs validation before the
user `pre('save')` hook), then the available-recompute hook; `none` models
a rejected save (mongoose ValidationError). -/
def productSave (p : Product) : Option Product :=
  if invValid p.inventory then some (applyPreSave p) else none

/-- The products collection. -/
abbrev DB := List Product

/-- `Product.findById`. -/
def findById (db : DB) (pid : Nat) : Option Product :=
  db.find? (fun p => p.id == pid)

/-- Persisting a saved product document back into the collection. -/
def storeProduct (db : DB) (p : Product) : DB :=
  db.map (fun q => if q.id == p.id then p else q)

/-- The stored `inventory.reserved` of a product (0 when absent). -/
def reservedOf (db : DB) (pid : Nat) : Int :=
  ((findById db pid).map (fun p => p.inventory.reserved)).getD 0

/-- The stored `inventory.quantity` of a product (0 when absent). -/
def quantityOf (db : DB) (pid : Nat) : Int :=
  ((findById db pid).map (fun p => p.inventory.quantity)).getD 0

/-- The stored `inventory.available` of a product (0 when absent). -/
def availableOf (db : DB) (pid : Nat) : Int :=
  ((findById db pid).map (fun p => p.inventory.available)).getD 0

/-- Whether a product id is present in the collection. -/
def existsIn (db : DB) (pid : Nat) : Bool :=
  (findById db pid).isSome

/-- A stored product is well formed: non-negative counters and the derived
`available = max 0 (quantity - reserved)` invariant that every completed
save establishes. -/
def invOk (p : Product) : Prop :=
  0 ≤ p.inventory.quantity ∧ 0 ≤ p.inventory.reserved ∧
    p.inventory.available = max 0 (p.inventory.quantity - p.inventory.reserved)

instance (p : Product) : Decidable (invOk p) := by
  unfold invOk; infer_instance

/-- Well-formed products collection. -/
def DBWF (db : DB) : Prop := ∀ p ∈ db, invOk p

instance (db : DB) : Decidable (DBWF db) := by
  unfold DBWF; infer_instance

/-- Order status enum (part_002). -/
inductive OrderStatus where
  | pending | processing | shipped | delivered | cancelled
  deriving Repr, DecidableEq

/-- Payment status enum (part_002). -/
inductive PaymentStatus where
  | pending | processing | paid | failed | refunded
  deriving Repr, DecidableEq

/-- An item of a create-order request body (already through the express
validators of part_004: `items.*.product` a Mongo id, `items.*.quantity`
an integer, the ≥ 1 bound appearing as a hypothesis where needed). -/
structure ReqItem where
  product : Nat
  quantity : Int
  variant : Option String := none
  deriving Repr, DecidableEq

/-- A persisted order line item (name/price snapshotted from the product). -/
structure OrderItem where
  product : Nat
  name : String
  price : Rat
  quantity : Int
  variant : Option String
  deriving Repr, DecidableEq

/-- An order document; fields the lifecycle engine reads or writes. -/
structure Order where
  id : Nat
  user : Nat
  items : List OrderItem
  shippingMethod : String
  shippingCost : Rat
  subtotal : Rat
  tax : Rat
  totalAmount : Rat
  status : OrderStatus
  paymentStatus : PaymentStatus
  paymentDetails : Option (List (String × String))
  trackingNumber : Option String
  notes : Option String
  deriving Repr, DecidableEq

/-- Errors surfaced by the controllers: `api` is `new ApiError(status, msg,
errors)` from the error middleware; `docValidation` is a mongoose document
validation failure thrown from `save()`. -/
inductive ControllerError where
  | api (statusCode : Nat) (message : String) (errors : List String)
  | docValidation (message : String)
  deriving Repr, DecidableEq

instance exceptDecEq {ε α : Type} [DecidableEq ε] [DecidableEq α] :
    DecidableEq (Except ε α) := fun a b =>
  match a, b with
  | Except.error e, Except.error f =>
    if h : e = f then isTrue (by rw [h]) else isFalse (fun hc => h (by injection hc))
  | Except.ok x, Except.ok y =>
    if h : x = y then isTrue (by rw [h]) else isFalse (fun hc => h (by injection hc))
  | Except.error _, Except.ok _ => isFalse (fun hc => Except.noConfusion hc)
  | Except.ok _, Except.error _ => isFalse (fun hc => Except.noConfusion hc)

/-- `calculateShippingCost` (order.controller.js lines 421-431): a switch on
the shipping-method string with `standard` as the default branch. -/
def calculateShippingCost (shippingMethod : String) : Rat :=
  if shippingMethod = ("express") then 15.99
  else if shippingMethod = ("overnight") then 29.99
  else 5.99

/-- Rounding to two decimal places, the `Rat` idealization of
`parseFloat(x.toFixed(2))`. -/
def roundTo2 (x : Rat) : Rat := ((round (x * 100) : Int) : Rat) / 100

/-- `calculateTax` (order.controller.js lines 434-437):
`parseFloat((subtotal * 0.07).toFixed(2))`. -/
def calculateTax (subtotal : Rat) : Rat := roundTo2 (subtotal * (7 / 100))

/-- The subtotal reduce of the order schema pre-save hook (part_002):
`items.reduce((sum, item) => sum + item.price * item.quantity, 0)`. -/
def itemsSubtotal (items : List OrderItem) : Rat :=
  (items.map (fun it => it.price * (it.quantity : Rat))).sum

/-- The order schema `pre('save')` hook (part_002): on a new document it
recomputes `subtotal` from the items and `totalAmount = subtotal +
shippingCost + tax`.  Used on creation (`isNew`); the payment update save
leaves `items` unmodified so the hook body is skipped there. -/
def orderPreSave (o : Order) : Order :=
  let st := itemsSubtotal o.items
  { o with subtotal := st, totalAmount := st + o.shippingCost + o.tax }

/-- Mutable state of the per-item validation/reservation loop of
`createOrder` (order.controller.js lines 186-220). -/
structure ScanState where
  db : DB
  orderItems : List OrderItem
  subtotal : Rat
  errorMessages : List String
  deriving Repr

/-- One iteration of the `createOrder` item loop (lines 190-220): look the
product up; a missing product or insufficient availability appends one
message and continues; otherwise the item is appended to the order, the
subtotal grows, the reservation is applied and the product saved.  A
rejected save throws out of the loop (second component). -/
def scanStep (s : ScanState) (item : ReqItem) : ScanState × Option ControllerError :=
  match findById s.db item.product with
  | none =>
      ({ s with errorMessages :=
          s.errorMessages ++ ["Product not found with ID: " ++ toString item.product] },
       none)
  | some product =>
      if product.inventory.available < item.quantity then
        ({ s with errorMessages :=
            s.errorMessages ++ ["Insufficient inventory for product: " ++ product.name] },
         none)
      else
        match productSave { product with inventory :=
          { product.inventory with
              reserved := product.inventory.reserved + item.quantity,
              available := product.inventory.quantity -
                (product.inventory.reserved + item.quantity) } } with
        | some saved =>
            ({ db := storeProduct s.db saved,
               orderItems := s.orderItems ++
                 [{ product := product.id, name := product.name, price := product.price,
                    quantity := item.quantity, variant := item.variant }],
               subtotal := s.subtotal + product.price * (item.quantity : Rat),
               errorMessages := s.errorMessages },
             none)
        | none => (s, some (ControllerError.docValidation product.name))

/-- The whole `createOrder` item loop. -/
def scanItems (s : ScanState) : List ReqItem → ScanState × Option ControllerError
  | [] => (s, none)
  | item :: rest =>
    match scanStep s item with
    | (s', none) => scanItems s' rest
    | (s', some e) => (s', some e)

/-- `createOrder` (order.controller.js lines 169-259).  Returns the products
collection as persisted when the handler finishes (saves performed before a
failure are kept) together with the created order or the error. -/
def createOrder (db : DB) (userId orderId : Nat) (items : List ReqItem)
    (shippingMethod : String) (notes : Option String) :
    DB × Except ControllerError Order :=
  if items.length = 0 then
    (db, Except.error (ControllerError.api 400 ("Order must contain at least one item") []))
  else
    match scanItems { db := db, orderItems := [], subtotal := 0, errorMessages := [] } items with
    | (s, some e) => (s.db, Except.error e)
    | (s, none) =>
      if s.errorMessages.length > 0 then
        (s.db, Except.error (ControllerError.api 400 ("Order validation failed") s.errorMessages))
      else
        let shippingCost := calculateShippingCost shippingMethod
        let tax := calculateTax s.subtotal
        let totalAmount := s.subtotal + shippingCost + tax
        let order : Order :=
          { id := orderId, user := userId, items := s.orderItems,
            shippingMethod := shippingMethod, shippingCost := shippingCost,
            subtotal := s.subtotal, tax := tax, totalAmount := totalAmount,
            status := OrderStatus.pending, paymentStatus := PaymentStatus.pending,
            paymentDetails := none, trackingNumber := none, notes := notes }
        (s.db, Except.ok (orderPreSave order))

/-- The release loop shared verbatim by the `cancelled` branch of
`updateOrder` (lines 283-290) and by `deleteOrder` (lines 354-361): for each
item, look the product up, silently skip it when missing, otherwise
`reserved -= quantity`, `available = quantity - reserved`, save.  A rejected
save throws, keeping the earlier saves. -/
def releaseItems : DB → List OrderItem → DB × Option ControllerError
  | db, [] => (db, none)
  | db, item :: rest =>
    match findById db item.product with
    | none => releaseItems db rest
    | some product =>
        match productSave { product with inventory :=
          { product.inventory with
              reserved := product.inventory.reserved - item.quantity,
              available := product.inventory.quantity -
                (product.inventory.reserved - item.quantity) } } with
        | some saved => releaseItems (storeProduct db saved) rest
        | none => (db, some (ControllerError.docValidation product.name))

/-- The fulfillment loop of the `shipped` branch of `updateOrder`
(lines 295-303): `quantity -= item.quantity; reserved -= item.quantity;
available = quantity - reserved`, save; missing products silently skipped. -/
def consumeItems : DB → List OrderItem → DB × Option ControllerError
  | db, [] => (db, none)
  | db, item :: rest =>
    match findById db item.product with
    | none => consumeItems db rest
    | some product =>
        match productSave { product with inventory :=
          { quantity := product.inventory.quantity - item.quantity,
            reserved := product.inventory.reserved - item.quantity,
            available := (product.inventory.quantity - item.quantity) -
              (product.inventory.reserved - item.quantity) } } with
        | some saved => consumeItems (storeProduct db saved) rest
        | none => (db, some (ControllerError.docValidation product.name))

/-- The `$set` body of `Order.findByIdAndUpdate` in `updateOrder`; the two
fields the lifecycle engine itself inspects. -/
structure OrderUpdates where
  status : Option OrderStatus := none
  trackingNumber : Option String := none
  deriving Repr, DecidableEq

/-- Applying the `$set` update to the order document. -/
def applyUpdates (o : Order) (u : OrderUpdates) : Order :=
  { o with
      status := u.status.getD o.status,
      trackingNumber :=
        match u.trackingNumber with
        | some t => some t
        | none => o.trackingNumber }

/-- `updateOrder` (order.controller.js lines 266-330) on the already-found
order: when the requested status differs from the current one, the
`cancelled` branch releases and the `shipped` branch consumes every item's
inventory before the `$set` is applied; any other transition only updates
the document. -/
def updateOrder (db : DB) (order : Order) (updates : OrderUpdates) :
    DB × Except ControllerError Order :=
  match updates.status with
  | some newStatus =>
    if newStatus = order.status then
      (db, Except.ok (applyUpdates order updates))
    else
      match newStatus with
      | OrderStatus.cancelled =>
        (match releaseItems db order.items with
         | (db', none) => (db', Except.ok (applyUpdates order updates))
         | (db', some e) => (db', Except.error e))
      | OrderStatus.shipped =>
        (match consumeItems db order.items with
         | (db', none) => (db', Except.ok (applyUpdates order updates))
         | (db', some e) => (db', Except.error e))
      | _ => (db, Except.ok (applyUpdates order updates))
  | none => (db, Except.ok (applyUpdates order updates))

/-- `deleteOrder` (order.controller.js lines 337-373) on the already-found
order: only pending orders can be deleted; on success every item's
reservation is released and the order removed (`Except.ok ()`). -/
def deleteOrder (db : DB) (order : Order) : DB × Except ControllerError Unit :=
  if order.status = OrderStatus.pending then
    match releaseItems db order.items with
    | (db', none) => (db', Except.ok ())
    | (db', some e) => (db', Except.error e)
  else
    (db, Except.error (ControllerError.api 400 ("Only pending orders can be deleted") []))

/-- `updateOrderPayment` (order.controller.js lines 380-418) on the
already-found order: sets `paymentStatus` (and `paymentDetails` when given);
when the new value is `paid` and the status is still `pending` the status
auto-advances to `processing`.  The products collection is passed through
untouched — the handler never reads or writes a product. -/
def updateOrderPayment (db : DB) (order : Order) (paymentStatus : PaymentStatus)
    (paymentDetails : Option (List (String × String))) : DB × Order :=
  let o1 := { order with paymentStatus := paymentStatus }
  let o2 :=
    match paymentDetails with
    | some pd => { o1 with paymentDetails := some pd }
    | none => o1
  let o3 :=
    if paymentStatus = PaymentStatus.paid ∧ order.status = OrderStatus.pending then
      { o2 with status := OrderStatus.processing }
    else o2
  (db, o3)

/-- The `inventory` object of a create-product request body (part_001
lines 55-58): caller may send `reserved` and even `available`; the
controller overwrites `available` with `quantity - (reserved || 0)`. -/
structure InventoryInput where
  quantity : Int
  reserved : Option Int := none
  available : Option Int := none
  deriving Repr, DecidableEq

/-- `createProduct` (part_001 lines 9-80), restricted to the fields the
inventory engine concerns; the slug-conflict and category checks that
precede the construction only throw before any mutation and are orthogonal
to the inventory claims.  The constructed document is saved through
`productSave` (validators, then the available-recompute hook). -/
def createProduct (db : DB) (pid : Nat) (name : String) (price : Rat)
    (inv : InventoryInput) : DB × Except ControllerError Product :=
  let inventory : Inventory :=
    { quantity := inv.quantity,
      reserved := inv.reserved.getD 0,
      available := inv.quantity - inv.reserved.getD 0 }
  let p : Product := { id := pid, name := name, price := price, inventory := inventory }
  match productSave p with
  | some saved => (db ++ [saved], Except.ok saved)
  | none => (db, Except.error (ControllerError.docValidation name))

/-- The `updates.inventory` object of an update-product request.  `reserved`
and `available` may be omitted by the caller.  `quantity` is taken as always
supplied: the schema requires it and gives it no default, so an update whose
subdocument replacement dropped it would leave a document with no usable
quantity at all; the claims here are settled on updates that carry one. -/
structure InventoryUpdates where
  quantity : Int
  reserved : Option Int := none
  available : Option Int := none
  deriving Repr, DecidableEq

/-- `updateProduct` (part_001 lines 220-289), restricted to its inventory
handling (lines 261-279).  When `updates.inventory` is present the
controller computes `updates.inventory.available = Math.max(0, newQuantity -
newReserved)` from the *effective* values — falling back to the stored
counters for fields the caller omitted — overwriting anything the caller
sent for `available`.  `findByIdAndUpdate` then applies `$set: updates` with
`runValidators: true` and no pre-save hook, and `$set` of the nested
`inventory` object replaces the whole subdocument: counters omitted from the
request are dropped, so an omitted `reserved` reads back as its schema
default 0 while `available` keeps the value that was computed against the
previous reserved.  Name/slug/category handling is omitted: those paths only
throw before any mutation. -/
def updateProduct (db : DB) (pid : Nat) (invUpd : Option InventoryUpdates) :
    DB × Except ControllerError Product :=
  match findById db pid with
  | none => (db, Except.error (ControllerError.api 404 ("Product not found") []))
  | some product =>
    match invUpd with
    | none => (db, Except.ok product)
    | some u =>
      let p' := { product with inventory :=
        { quantity := u.quantity,
          reserved := u.reserved.getD 0,
          available := max 0 (u.quantity - u.reserved.getD product.inventory.reserved) } }
      if invValid p'.inventory then (storeProduct db p', Except.ok p')
      else (db, Except.error (ControllerError.docValidation product.name))

/-- Sum of the requested quantities of the items referring to a product. -/
def reqQty (items : List ReqItem) (pid : Nat) : Int :=
  (items.map (fun it => if it.product = pid then it.quantity else 0)).sum

/-- Sum of the line-item quantities of an order referring to a product. -/
def ordQty (items : List OrderItem) (pid : Nat) : Int :=
  (items.map (fun it => if it.product = pid then it.quantity else 0)).sum

/-- Sum of the line-item quantities referring to a product, counting only
items whose product is present in the collection (missing products are
silently skipped by the release/consume loops). -/
def presentOrdQty (db : DB) (items : List OrderItem) (pid : Nat) : Int :=
  ordQty (items.filter (fun it => existsIn db it.product)) pid

/-- Whether the `createOrder` scan records an error for this item against
this collection: a missing product, or availability below the request. -/
def itemFails (db : DB) (it : ReqItem) : Bool :=
  match findById db it.product with
  | none => true
  | some p => p.inventory.available < it.quantity

/-! ### Basic lemmas about the collection operations -/

theorem findById_id {db : DB} {pid : Nat} {p : Product}
    (h : findById db pid = some p) : p.id = pid := by
  have := List.find?_some h
  simpa using this

theorem findById_mem {db : DB} {pid : Nat} {p : Product}
    (h : findById db pid = some p) : p ∈ db :=
  List.mem_of_find?_eq_some h

theorem findById_cons (q : Product) (db : DB) (pid : Nat) :
    findById (q :: db) pid = if q.id = pid then some q else findById db pid := by
  unfold findById
  by_cases h : q.id = pid
  · rw [List.find?_cons_of_pos _ (by simp [h]), if_pos h]
  · rw [List.find?_cons_of_neg _ (by simp [h]), if_neg h]

theorem storeProduct_cons (q : Product) (db : DB) (p : Product) :
    storeProduct (q :: db) p = (if q.id = p.id then p else q) :: storeProduct db p := by
  simp only [storeProduct, List.map_cons, beq_iff_eq]

theorem findById_storeProduct (db : DB) (p : Product) (pid : Nat) :
    findById (storeProduct db p) pid =
      if p.id = pid then (findById db pid).map (fun _ => p) else findById db pid := by
  induction db with
  | nil => simp [findById, storeProduct]
  | cons q db ih =>
    rw [storeProduct_cons, findById_cons, findById_cons]
    by_cases hqp : q.id = p.id
    · by_cases hppid : p.id = pid
      · have hqpid : q.id = pid := hqp.trans hppid
        simp [hqp, hppid, hqpid]
      · have hqpid : ¬ q.id = pid := by rw [hqp]; exact hppid
        simp only [if_pos hqp, if_neg hppid, if_neg hqpid]
        rw [ih, if_neg hppid]
    · by_cases hqpid : q.id = pid
      · have hppid : ¬ p.id = pid := by
          intro h
          exact hqp (by rw [hqpid, h])
        simp only [if_neg hqp, if_pos hqpid, if_neg hppid]
      · simp only [if_neg hqp, if_neg hqpid]
        exact ih

theorem existsIn_storeProduct (db : DB) (p : Product) (pid : Nat) :
    existsIn (storeProduct db p) pid = existsIn db pid := by
  unfold existsIn
  rw [findById_storeProduct]
  by_cases h : p.id = pid
  · rw [if_pos h]
    cases findById db pid <;> simp
  · rw [if_neg h]

theorem findById_storeProduct_ne {p : Product} {pid : Nat} (db : DB)
    (h : p.id ≠ pid) : findById (storeProduct db p) pid = findById db pid := by
  rw [findById_storeProduct, if_neg h]

theorem findById_storeProduct_self {db : DB} {p q : Product}
    (h : findById db p.id = some q) :
    findById (storeProduct db p) p.id = some p := by
  rw [findById_storeProduct, if_pos rfl, h]
  rfl

theorem reservedOf_storeProduct_ne {p : Product} {pid : Nat} (db : DB)
    (h : p.id ≠ pid) : reservedOf (storeProduct db p) pid = reservedOf db pid := by
  unfold reservedOf
  rw [findById_storeProduct_ne db h]

theorem quantityOf_storeProduct_ne {p : Product} {pid : Nat} (db : DB)
    (h : p.id ≠ pid) : quantityOf (storeProduct db p) pid = quantityOf db pid := by
  unfold quantityOf
  rw [findById_storeProduct_ne db h]

theorem availableOf_storeProduct_ne {p : Product} {pid : Nat} (db : DB)
    (h : p.id ≠ pid) : availableOf (storeProduct db p) pid = availableOf db pid := by
  unfold availableOf
  rw [findById_storeProduct_ne db h]

theorem reservedOf_storeProduct_self {db : DB} {p q : Product}
    (h : findById db p.id = some q) :
    reservedOf (storeProduct db p) p.id = p.inventory.reserved := by
  unfold reservedOf
  rw [findById_storeProduct_self h]
  rfl

theorem quantityOf_storeProduct_self {db : DB} {p q : Product}
    (h : findById db p.id = some q) :
    quantityOf (storeProduct db p) p.id = p.inventory.quantity := by
  unfold quantityOf
  rw [findById_storeProduct_self h]
  rfl

theorem availableOf_storeProduct_self {db : DB} {p q : Product}
    (h : findById db p.id = some q) :
    availableOf (storeProduct db p) p.id = p.inventory.available := by
  unfold availableOf
  rw [findById_storeProduct_self h]
  rfl

theorem DBWF_storeProduct {db : DB} {p : Product} (hwf : DBWF db)
    (hp : invOk p) : DBWF (storeProduct db p) := by
  intro q hq
  unfold storeProduct at hq
  rcases List.mem_map.1 hq with ⟨r, hr, hrq⟩
  by_cases h : r.id = p.id
  · simpa [h, ← hrq] using hp
  · have : r = q := by simpa [h] using hrq
    exact this ▸ hwf r hr

theorem DBWF_findById {db : DB} {pid : Nat} {p : Product} (hwf : DBWF db)
    (h : findById db pid = some p) : invOk p :=
  hwf p (findById_mem h)

theorem availableOf_wf {db : DB} (hwf : DBWF db) (pid : Nat) :
    availableOf db pid = max 0 (quantityOf db pid - reservedOf db pid) := by
  unfold availableOf quantityOf reservedOf
  cases h : findById db pid with
  | none => simp
  | some p =>
    have := (DBWF_findById hwf h).2.2
    simpa using this

theorem reservedOf_nonneg {db : DB} (hwf : DBWF db) (pid : Nat) :
    0 ≤ reservedOf db pid := by
  unfold reservedOf
  cases h : findById db pid with
  | none => simp
  | some p => simpa using (DBWF_findById hwf h).2.1

theorem quantityOf_nonneg {db : DB} (hwf : DBWF db) (pid : Nat) :
    0 ≤ quantityOf db pid := by
  unfold quantityOf
  cases h : findById db pid with
  | none => simp
  | some p => simpa using (DBWF_findById hwf h).1

theorem reservedOf_eq_of_findById {db : DB} {pid : Nat} {p : Product}
    (h : findById db pid = some p) : reservedOf db pid = p.inventory.reserved := by
  unfold reservedOf; rw [h]; rfl

theorem quantityOf_eq_of_findById {db : DB} {pid : Nat} {p : Product}
    (h : findById db pid = some p) : quantityOf db pid = p.inventory.quantity := by
  unfold quantityOf; rw [h]; rfl

theorem availableOf_eq_of_findById {db : DB} {pid : Nat} {p : Product}
    (h : findById db pid = some p) : availableOf db pid = p.inventory.available := by
  unfold availableOf; rw [h]; rfl

theorem existsIn_true_of_findById {db : DB} {pid : Nat} {p : Product}
    (h : findById db pid = some p) : existsIn db pid = true := by
  unfold existsIn; rw [h]; rfl

theorem findById_of_existsIn {db : DB} {pid : Nat}
    (h : existsIn db pid = true) : ∃ p, findById db pid = some p := by
  unfold existsIn at h
  cases hf : findById db pid with
  | none => rw [hf] at h; simp at h
  | some p => exact ⟨p, rfl⟩

/-! ### Per-product quantity sums -/

theorem reqQty_nil (pid : Nat) : reqQty [] pid = 0 := rfl

theorem reqQty_cons (it : ReqItem) (l : List ReqItem) (pid : Nat) :
    reqQty (it :: l) pid = (if it.product = pid then it.quantity else 0) + reqQty l pid := by
  simp [reqQty]

theorem reqQty_nonneg {l : List ReqItem} (h : ∀ it ∈ l, 0 ≤ it.quantity) (pid : Nat) :
    0 ≤ reqQty l pid := by
  induction l with
  | nil => simp [reqQty]
  | cons it l ih =>
    rw [reqQty_cons]
    have h1 : 0 ≤ it.quantity := h it (by simp)
    have h2 := ih (fun j hj => h j (by simp [hj]))
    by_cases hp : it.product = pid
    · rw [if_pos hp]; omega
    · rw [if_neg hp]; omega

theorem ordQty_nil (pid : Nat) : ordQty [] pid = 0 := rfl

theorem ordQty_cons (it : OrderItem) (l : List OrderItem) (pid : Nat) :
    ordQty (it :: l) pid = (if it.product = pid then it.quantity else 0) + ordQty l pid := by
  simp [ordQty]

theorem ordQty_append (l₁ l₂ : List OrderItem) (pid : Nat) :
    ordQty (l₁ ++ l₂) pid = ordQty l₁ pid + ordQty l₂ pid := by
  simp [ordQty]

theorem ordQty_nonneg {l : List OrderItem} (h : ∀ it ∈ l, 0 ≤ it.quantity) (pid : Nat) :
    0 ≤ ordQty l pid := by
  induction l with
  | nil => simp [ordQty]
  | cons it l ih =>
    rw [ordQty_cons]
    have h1 : 0 ≤ it.quantity := h it (by simp)
    have h2 := ih (fun j hj => h j (by simp [hj]))
    by_cases hp : it.product = pid
    · rw [if_pos hp]; omega
    · rw [if_neg hp]; omega

theorem presentOrdQty_nil (db : DB) (pid : Nat) : presentOrdQty db [] pid = 0 := rfl

theorem presentOrdQty_cons (db : DB) (it : OrderItem) (l : List OrderItem) (pid : Nat) :
    presentOrdQty db (it :: l) pid =
      (if existsIn db it.product then (if it.product = pid then it.quantity else 0) else 0)
        + presentOrdQty db l pid := by
  unfold presentOrdQty
  by_cases h : existsIn db it.product
  · rw [List.filter_cons_of_pos (by simpa using h), ordQty_cons, if_pos h]
  · rw [List.filter_cons_of_neg (by simpa using h), if_neg h]
    omega

theorem presentOrdQty_congr {db₁ db₂ : DB}
    (h : ∀ j, existsIn db₁ j = existsIn db₂ j) (l : List OrderItem) (pid : Nat) :
    presentOrdQty db₁ l pid = presentOrdQty db₂ l pid := by
  induction l with
  | nil => rfl
  | cons it l ih => rw [presentOrdQty_cons, presentOrdQty_cons, h it.product, ih]

theorem presentOrdQty_nonneg {db : DB} {l : List OrderItem}
    (h : ∀ it ∈ l, 0 ≤ it.quantity) (pid : Nat) : 0 ≤ presentOrdQty db l pid := by
  unfold presentOrdQty
  refine ordQty_nonneg (fun it hit => ?_) pid
  exact h it (List.mem_of_mem_filter hit)

theorem presentOrdQty_eq_ordQty {db : DB} {l : List OrderItem}
    (h : ∀ it ∈ l, existsIn db it.product = true) (pid : Nat) :
    presentOrdQty db l pid = ordQty l pid := by
  unfold presentOrdQty
  rw [List.filter_eq_self.2 (fun it hit => by simpa using h it hit)]

/-! ### Facts about `productSave` -/

theorem applyPreSave_id (p : Product) : (applyPreSave p).id = p.id := rfl

theorem applyPreSave_name (p : Product) : (applyPreSave p).name = p.name := rfl

theorem applyPreSave_quantity (p : Product) :
    (applyPreSave p).inventory.quantity = p.inventory.quantity := rfl

theorem applyPreSave_reserved (p : Product) :
    (applyPreSave p).inventory.reserved = p.inventory.reserved := rfl

theorem applyPreSave_available (p : Product) :
    (applyPreSave p).inventory.available =
      max 0 (p.inventory.quantity - p.inventory.reserved) := rfl

theorem productSave_of_valid {p : Product} (hv : invValid p.inventory) :
    productSave p = some (applyPreSave p) := by
  unfold productSave
  rw [if_pos hv]

theorem productSave_of_invalid {p : Product} (hv : ¬ invValid p.inventory) :
    productSave p = none := by
  unfold productSave
  rw [if_neg hv]

theorem productSave_invOk {p : Product} (hv : invValid p.inventory) :
    invOk (applyPreSave p) := by
  obtain ⟨h1, h2, _⟩ := hv
  exact ⟨h1, h2, rfl⟩

/-! ### The release loop -/

theorem releaseItems_ok (items : List OrderItem) :
    ∀ (db : DB), DBWF db →
      (∀ it ∈ items, 1 ≤ it.quantity) →
      (∀ pid, presentOrdQty db items pid ≤ reservedOf db pid) →
      (∀ pid, 0 < presentOrdQty db items pid → reservedOf db pid ≤ quantityOf db pid) →
      ∃ db', releaseItems db items = (db', none) ∧ DBWF db' ∧
        (∀ pid, quantityOf db' pid = quantityOf db pid) ∧
        (∀ pid, existsIn db' pid = existsIn db pid) ∧
        (∀ pid, reservedOf db' pid = reservedOf db pid - presentOrdQty db items pid) := by
  induction items with
  | nil =>
    intro db hwf _ _ _
    exact ⟨db, rfl, hwf, fun _ => rfl, fun _ => rfl,
      fun pid => by rw [presentOrdQty_nil]; omega⟩
  | cons item rest ih =>
    intro db hwf hq hres hqt
    have hq1 : (1 : Int) ≤ item.quantity := hq item (by simp)
    have hqrest : ∀ it ∈ rest, (1 : Int) ≤ it.quantity := fun j hj => hq j (by simp [hj])
    have hrestnn : ∀ pid, 0 ≤ presentOrdQty db rest pid :=
      fun pid => presentOrdQty_nonneg (fun j hj => by have := hqrest j hj; omega) pid
    cases hfind : findById db item.product with
    | none =>
      have hskip : releaseItems db (item :: rest) = releaseItems db rest := by
        simp only [releaseItems]
        rw [hfind]
      have hex : existsIn db item.product = false := by
        unfold existsIn
        rw [hfind]
        rfl
      have hcons : ∀ pid, presentOrdQty db (item :: rest) pid = presentOrdQty db rest pid := by
        intro pid
        rw [presentOrdQty_cons, hex]
        simp
      obtain ⟨db', h1, h2, h3, h4, h5⟩ := ih db hwf hqrest
        (fun pid => by rw [← hcons pid]; exact hres pid)
        (fun pid hpos => hqt pid (by rw [hcons pid]; exact hpos))
      exact ⟨db', by rw [hskip]; exact h1, h2, h3, h4,
        fun pid => by rw [h5 pid, hcons pid]⟩
    | some product =>
      have hpid : product.id = item.product := findById_id hfind
      have hinv := DBWF_findById hwf hfind
      have hexT : existsIn db item.product = true := existsIn_true_of_findById hfind
      have hrq : reservedOf db item.product = product.inventory.reserved :=
        reservedOf_eq_of_findById hfind
      have hqq : quantityOf db item.product = product.inventory.quantity :=
        quantityOf_eq_of_findById hfind
      have hconsP : presentOrdQty db (item :: rest) item.product
          = item.quantity + presentOrdQty db rest item.product := by
        rw [presentOrdQty_cons, hexT]
        simp
      have hconsO : ∀ pid, ¬ item.product = pid →
          presentOrdQty db (item :: rest) pid = presentOrdQty db rest pid := by
        intro pid hne
        rw [presentOrdQty_cons, hexT]
        simp [hne]
      have hresP := hres item.product
      rw [hconsP, hrq] at hresP
      have hqtP : product.inventory.reserved ≤ product.inventory.quantity := by
        have h := hqt item.product (by rw [hconsP]; have := hrestnn item.product; omega)
        rw [hrq, hqq] at h
        exact h
      have hrestP := hrestnn item.product
      have hv : invValid ({ product with inventory :=
          { product.inventory with
              reserved := product.inventory.reserved - item.quantity,
              available := product.inventory.quantity -
                (product.inventory.reserved - item.quantity) } } : Product).inventory := by
        refine ⟨hinv.1, ?_, ?_⟩
        · show (0 : Int) ≤ product.inventory.reserved - item.quantity
          omega
        · show (0 : Int) ≤ product.inventory.quantity -
            (product.inventory.reserved - item.quantity)
          omega
      have hstep : releaseItems db (item :: rest) =
          releaseItems (storeProduct db (applyPreSave { product with inventory :=
            { product.inventory with
                reserved := product.inventory.reserved - item.quantity,
                available := product.inventory.quantity -
                  (product.inventory.reserved - item.quantity) } })) rest := by
        simp only [releaseItems]
        rw [hfind]
        dsimp only
        rw [productSave_of_valid hv]
      have hsid : (applyPreSave { product with inventory :=
          { product.inventory with
              reserved := product.inventory.reserved - item.quantity,
              available := product.inventory.quantity -
                (product.inventory.reserved - item.quantity) } }).id = item.product := hpid
      have hfind1 : findById db (applyPreSave { product with inventory :=
          { product.inventory with
              reserved := product.inventory.reserved - item.quantity,
              available := product.inventory.quantity -
                (product.inventory.reserved - item.quantity) } }).id = some product := by
        rw [hsid]
        exact hfind
      have hwf1 : DBWF (storeProduct db (applyPreSave { product with inventory :=
          { product.inventory with
              reserved := product.inventory.reserved - item.quantity,
              available := product.inventory.quantity -
                (product.inventory.reserved - item.quantity) } })) :=
        DBWF_storeProduct hwf (productSave_invOk hv)
      have hex1 : ∀ pid, existsIn (storeProduct db (applyPreSave { product with inventory :=
          { product.inventory with
              reserved := product.inventory.reserved - item.quantity,
              available := product.inventory.quantity -
                (product.inventory.reserved - item.quantity) } })) pid = existsIn db pid :=
        fun pid => existsIn_storeProduct db _ pid
      have hres1self : reservedOf (storeProduct db (applyPreSave { product with inventory :=
          { product.inventory with
              reserved := product.inventory.reserved - item.quantity,
              available := product.inventory.quantity -
                (product.inventory.reserved - item.quantity) } })) item.product
          = product.inventory.reserved - item.quantity := by
        rw [← hsid, reservedOf_storeProduct_self hfind1]
        rfl
      have hqty1self : quantityOf (storeProduct db (applyPreSave { product with inventory :=
          { product.inventory with
              reserved := product.inventory.reserved - item.quantity,
              available := product.inventory.quantity -
                (product.inventory.reserved - item.quantity) } })) item.product
          = product.inventory.quantity := by
        rw [← hsid, quantityOf_storeProduct_self hfind1]
        rfl
      have hres1ne : ∀ pid, ¬ item.product = pid →
          reservedOf (storeProduct db (applyPreSave { product with inventory :=
          { product.inventory with
              reserved := product.inventory.reserved - item.quantity,
              available := product.inventory.quantity -
                (product.inventory.reserved - item.quantity) } })) pid = reservedOf db pid := by
        intro pid hne
        exact reservedOf_storeProduct_ne db (by rw [hsid]; exact hne)
      have hqty1ne : ∀ pid, ¬ item.product = pid →
          quantityOf (storeProduct db (applyPreSave { product with inventory :=
          { product.inventory with
              reserved := product.inventory.reserved - item.quantity,
              available := product.inventory.quantity -
                (product.inventory.reserved - item.quantity) } })) pid = quantityOf db pid := by
        intro pid hne
        exact quantityOf_storeProduct_ne db (by rw [hsid]; exact hne)
      have hpres1 : ∀ pid, presentOrdQty (storeProduct db (applyPreSave { product with inventory :=
          { product.inventory with
              reserved := product.inventory.reserved - item.quantity,
              available := product.inventory.quantity -
                (product.inventory.reserved - item.quantity) } })) rest pid
          = presentOrdQty db rest pid :=
        fun pid => presentOrdQty_congr hex1 rest pid
      obtain ⟨db', h1, h2, h3, h4, h5⟩ := ih _ hwf1 hqrest
        (by
          intro pid
          rw [hpres1 pid]
          by_cases hcase : item.product = pid
          · rw [← hcase, hres1self]
            have := hres item.product
            rw [hconsP, hrq] at this
            have := hrestnn item.product
            omega
          · rw [hres1ne pid hcase]
            have h := hres pid
            rw [hconsO pid hcase] at h
            exact h)
        (by
          intro pid hpos
          rw [hpres1 pid] at hpos
          by_cases hcase : item.product = pid
          · rw [← hcase, hres1self, hqty1self]
            omega
          · rw [hres1ne pid hcase, hqty1ne pid hcase]
            refine hqt pid ?_
            rw [hconsO pid hcase]
            exact hpos)
      refine ⟨db', by rw [hstep]; exact h1, h2, ?_, ?_, ?_⟩
      · intro pid
        rw [h3 pid]
        by_cases hcase : item.product = pid
        · rw [← hcase, hqty1self, ← hcase] at *
          rw [hqq]
        · rw [hqty1ne pid hcase]
      · intro pid
        rw [h4 pid, hex1 pid]
      · intro pid
        rw [h5 pid, hpres1 pid]
        by_cases hcase : item.product = pid
        · rw [← hcase, hres1self, hrq, hconsP]
          omega
        · rw [hres1ne pid hcase, hconsO pid hcase]

/-! ### The consume (fulfillment) loop -/

theorem consumeItems_ok (items : List OrderItem) :
    ∀ (db : DB), DBWF db →
      (∀ it ∈ items, 1 ≤ it.quantity) →
      (∀ pid, presentOrdQty db items pid ≤ reservedOf db pid) →
      (∀ pid, 0 < presentOrdQty db items pid → reservedOf db pid ≤ quantityOf db pid) →
      ∃ db', consumeItems db items = (db', none) ∧ DBWF db' ∧
        (∀ pid, quantityOf db' pid = quantityOf db pid - presentOrdQty db items pid) ∧
        (∀ pid, existsIn db' pid = existsIn db pid) ∧
        (∀ pid, reservedOf db' pid = reservedOf db pid - presentOrdQty db items pid) := by
  induction items with
  | nil =>
    intro db hwf _ _ _
    exact ⟨db, rfl, hwf, fun pid => by rw [presentOrdQty_nil]; omega, fun _ => rfl,
      fun pid => by rw [presentOrdQty_nil]; omega⟩
  | cons item rest ih =>
    intro db hwf hq hres hqt
    have hq1 : (1 : Int) ≤ item.quantity := hq item (by simp)
    have hqrest : ∀ it ∈ rest, (1 : Int) ≤ it.quantity := fun j hj => hq j (by simp [hj])
    have hrestnn : ∀ pid, 0 ≤ presentOrdQty db rest pid :=
      fun pid => presentOrdQty_nonneg (fun j hj => by have := hqrest j hj; omega) pid
    cases hfind : findById db item.product with
    | none =>
      have hskip : consumeItems db (item :: rest) = consumeItems db rest := by
        simp only [consumeItems]
        rw [hfind]
      have hex : existsIn db item.product = false := by
        unfold existsIn
        rw [hfind]
        rfl
      have hcons : ∀ pid, presentOrdQty db (item :: rest) pid = presentOrdQty db rest pid := by
        intro pid
        rw [presentOrdQty_cons, hex]
        simp
      obtain ⟨db', h1, h2, h3, h4, h5⟩ := ih db hwf hqrest
        (fun pid => by rw [← hcons pid]; exact hres pid)
        (fun pid hpos => hqt pid (by rw [hcons pid]; exact hpos))
      exact ⟨db', by rw [hskip]; exact h1, h2, fun pid => by rw [h3 pid, hcons pid], h4,
        fun pid => by rw [h5 pid, hcons pid]⟩
    | some product =>
      have hpid : product.id = item.product := findById_id hfind
      have hinv := DBWF_findById hwf hfind
      have hexT : existsIn db item.product = true := existsIn_true_of_findById hfind
      have hrq : reservedOf db item.product = product.inventory.reserved :=
        reservedOf_eq_of_findById hfind
      have hqq : quantityOf db item.product = product.inventory.quantity :=
        quantityOf_eq_of_findById hfind
      have hconsP : presentOrdQty db (item :: rest) item.product
          = item.quantity + presentOrdQty db rest item.product := by
        rw [presentOrdQty_cons, hexT]
        simp
      have hconsO : ∀ pid, ¬ item.product = pid →
          presentOrdQty db (item :: rest) pid = presentOrdQty db rest pid := by
        intro pid hne
        rw [presentOrdQty_cons, hexT]
        simp [hne]
      have hresP := hres item.product
      rw [hconsP, hrq] at hresP
      have hqtP : product.inventory.reserved ≤ product.inventory.quantity := by
        have h := hqt item.product (by rw [hconsP]; have := hrestnn item.product; omega)
        rw [hrq, hqq] at h
        exact h
      have hrestP := hrestnn item.product
      have hv : invValid ({ product with inventory :=
          { quantity := product.inventory.quantity - item.quantity,
            reserved := product.inventory.reserved - item.quantity,
            available := (product.inventory.quantity - item.quantity) -
              (product.inventory.reserved - item.quantity) } } : Product).inventory := by
        refine ⟨?_, ?_, ?_⟩
        · show (0 : Int) ≤ product.inventory.quantity - item.quantity
          omega
        · show (0 : Int) ≤ product.inventory.reserved - item.quantity
          omega
        · show (0 : Int) ≤ (product.inventory.quantity - item.quantity) -
            (product.inventory.reserved - item.quantity)
          omega
      have hstep : consumeItems db (item :: rest) =
          consumeItems (storeProduct db (applyPreSave { product with inventory :=
            { quantity := product.inventory.quantity - item.quantity,
              reserved := product.inventory.reserved - item.quantity,
              available := (product.inventory.quantity - item.quantity) -
                (product.inventory.reserved - item.quantity) } })) rest := by
        simp only [consumeItems]
        rw [hfind]
        dsimp only
        rw [productSave_of_valid hv]
      have hsid : (applyPreSave { product with inventory :=
          { quantity := product.inventory.quantity - item.quantity,
            reserved := product.inventory.reserved - item.quantity,
            available := (product.inventory.quantity - item.quantity) -
              (product.inventory.reserved - item.quantity) } }).id = item.product := hpid
      have hfind1 : findById db (applyPreSave { product with inventory :=
          { quantity := product.inventory.quantity - item.quantity,
            reserved := product.inventory.reserved - item.quantity,
            available := (product.inventory.quantity - item.quantity) -
              (product.inventory.reserved - item.quantity) } }).id = some product := by
        rw [hsid]
        exact hfind
      have hwf1 : DBWF (storeProduct db (applyPreSave { product with inventory :=
          { quantity := product.inventory.quantity - item.quantity,
            reserved := product.inventory.reserved - item.quantity,
            available := (product.inventory.quantity - item.quantity) -
              (product.inventory.reserved - item.quantity) } })) :=
        DBWF_storeProduct hwf (productSave_invOk hv)
      have hex1 : ∀ pid, existsIn (storeProduct db (applyPreSave { product with inventory :=
          { quantity := product.inventory.quantity - item.quantity,
            reserved := product.inventory.reserved - item.quantity,
            available := (product.inventory.quantity - item.quantity) -
              (product.inventory.reserved - item.quantity) } })) pid = existsIn db pid :=
        fun pid => existsIn_storeProduct db _ pid
      have hres1self : reservedOf (storeProduct db (applyPreSave { product with inventory :=
          { quantity := product.inventory.quantity - item.quantity,
            reserved := product.inventory.reserved - item.quantity,
            available := (product.inventory.quantity - item.quantity) -
              (product.inventory.reserved - item.quantity) } })) item.product
          = product.inventory.reserved - item.quantity := by
        rw [← hsid, reservedOf_storeProduct_self hfind1]
        rfl
      have hqty1self : quantityOf (storeProduct db (applyPreSave { product with inventory :=
          { quantity := product.inventory.quantity - item.quantity,
            reserved := product.inventory.reserved - item.quantity,
            available := (product.inventory.quantity - item.quantity) -
              (product.inventory.reserved - item.quantity) } })) item.product
          = product.inventory.quantity - item.quantity := by
        rw [← hsid, quantityOf_storeProduct_self hfind1]
        rfl
      have hres1ne : ∀ pid, ¬ item.product = pid →
          reservedOf (storeProduct db (applyPreSave { product with inventory :=
          { quantity := product.inventory.quantity - item.quantity,
            reserved := product.inventory.reserved - item.quantity,
            available := (product.inventory.quantity - item.quantity) -
              (product.inventory.reserved - item.quantity) } })) pid = reservedOf db pid := by
        intro pid hne
        exact reservedOf_storeProduct_ne db (by rw [hsid]; exact hne)
      have hqty1ne : ∀ pid, ¬ item.product = pid →
          quantityOf (storeProduct db (applyPreSave { product with inventory :=
          { quantity := product.inventory.quantity - item.quantity,
            reserved := product.inventory.reserved - item.quantity,
            available := (product.inventory.quantity - item.quantity) -
              (product.inventory.reserved - item.quantity) } })) pid = quantityOf db pid := by
        intro pid hne
        exact quantityOf_storeProduct_ne db (by rw [hsid]; exact hne)
      have hpres1 : ∀ pid, presentOrdQty (storeProduct db (applyPreSave { product with inventory :=
          { quantity := product.inventory.quantity - item.quantity,
            reserved := product.inventory.reserved - item.quantity,
            available := (product.inventory.quantity - item.quantity) -
              (product.inventory.reserved - item.quantity) } })) rest pid
          = presentOrdQty db rest pid :=
        fun pid => presentOrdQty_congr hex1 rest pid
      obtain ⟨db', h1, h2, h3, h4, h5⟩ := ih _ hwf1 hqrest
        (by
          intro pid
          rw [hpres1 pid]
          by_cases hcase : item.product = pid
          · rw [← hcase, hres1self]
            omega
          · rw [hres1ne pid hcase]
            have h := hres pid
            rw [hconsO pid hcase] at h
            exact h)
        (by
          intro pid hpos
          rw [hpres1 pid] at hpos
          by_cases hcase : item.product = pid
          · rw [← hcase, hres1self, hqty1self]
            omega
          · rw [hres1ne pid hcase, hqty1ne pid hcase]
            refine hqt pid ?_
            rw [hconsO pid hcase]
            exact hpos)
      refine ⟨db', by rw [hstep]; exact h1, h2, ?_, ?_, ?_⟩
      · intro pid
        rw [h3 pid, hpres1 pid]
        by_cases hcase : item.product = pid
        · rw [← hcase, hqty1self, hqq, hconsP]
          omega
        · rw [hqty1ne pid hcase, hconsO pid hcase]
      · intro pid
        rw [h4 pid, hex1 pid]
      · intro pid
        rw [h5 pid, hpres1 pid]
        by_cases hcase : item.product = pid
        · rw [← hcase, hres1self, hrq, hconsP]
          omega
        · rw [hres1ne pid hcase, hconsO pid hcase]

/-! ### The createOrder scan loop -/

theorem existsIn_false_iff {db : DB} {pid : Nat} :
    existsIn db pid = false ↔ findById db pid = none := by
  unfold existsIn
  cases findById db pid <;> simp

theorem itemFails_true_iff {db : DB} {it : ReqItem} :
    itemFails db it = true ↔
      existsIn db it.product = false ∨
        (existsIn db it.product = true ∧ availableOf db it.product < it.quantity) := by
  unfold itemFails
  cases h : findById db it.product with
  | none =>
    have hx : existsIn db it.product = false := existsIn_false_iff.2 h
    simp [hx]
  | some p =>
    have hx : existsIn db it.product = true := existsIn_true_of_findById h
    have ha : availableOf db it.product = p.inventory.available :=
      availableOf_eq_of_findById h
    simp [hx, ha]

theorem itemsSubtotal_append (l : List OrderItem) (it : OrderItem) :
    itemsSubtotal (l ++ [it]) = itemsSubtotal l + it.price * (it.quantity : Rat) := by
  simp [itemsSubtotal]

theorem scanItems_total (items : List ReqItem) :
    ∀ (s : ScanState), DBWF s.db → (∀ it ∈ items, 1 ≤ it.quantity) →
      ∃ s', scanItems s items = (s', none) ∧ DBWF s'.db ∧
        (∀ pid, quantityOf s'.db pid = quantityOf s.db pid) ∧
        (∀ pid, existsIn s'.db pid = existsIn s.db pid) ∧
        (∀ pid, reservedOf s.db pid ≤ reservedOf s'.db pid) ∧
        (∀ pid, availableOf s'.db pid ≤ availableOf s.db pid) ∧
        (∃ extra, s'.errorMessages = s.errorMessages ++ extra ∧
          extra.length ≤ items.length ∧
          ((∃ it ∈ items, itemFails s.db it = true) → extra ≠ [])) := by
  induction items with
  | nil =>
    intro s hwf _
    exact ⟨s, rfl, hwf, fun _ => rfl, fun _ => rfl, fun _ => le_rfl, fun _ => le_rfl,
      ⟨[], by simp, by simp, fun h => by simp at h⟩⟩
  | cons item rest ih =>
    intro s hwf hq
    have hq1 : (1 : Int) ≤ item.quantity := hq item (by simp)
    have hqrest : ∀ it ∈ rest, (1 : Int) ≤ it.quantity := fun j hj => hq j (by simp [hj])
    cases hfind : findById s.db item.product with
    | none =>
      have hstepEq : scanStep s item = ({ s with errorMessages :=
          s.errorMessages ++ ["Product not found with ID: " ++ toString item.product] },
          none) := by
        unfold scanStep
        rw [hfind]
      have hskip : scanItems s (item :: rest) = scanItems { s with errorMessages :=
          s.errorMessages ++ ["Product not found with ID: " ++ toString item.product] } rest := by
        simp only [scanItems]
        rw [hstepEq]
      obtain ⟨s', h1, h2, h3, h4, h5, h6, extra, he1, he2, he3⟩ := ih
        { s with errorMessages :=
          s.errorMessages ++ ["Product not found with ID: " ++ toString item.product] } hwf hqrest
      refine ⟨s', by rw [hskip]; exact h1, h2, h3, h4, h5, h6,
        ⟨("Product not found with ID: " ++ toString item.product) :: extra, ?_, ?_, ?_⟩⟩
      · rw [he1]
        simp
      · simp only [List.length_cons]
        omega
      · intro _
        simp
    | some product =>
      have hexT : existsIn s.db item.product = true := existsIn_true_of_findById hfind
      have hinv := DBWF_findById hwf hfind
      by_cases hlt : product.inventory.available < item.quantity
      · have hstepEq : scanStep s item = ({ s with errorMessages :=
            s.errorMessages ++ ["Insufficient inventory for product: " ++ product.name] },
            none) := by
          unfold scanStep
          rw [hfind]
          dsimp only
          rw [if_pos hlt]
        have hskip : scanItems s (item :: rest) = scanItems { s with errorMessages :=
            s.errorMessages ++ ["Insufficient inventory for product: " ++ product.name] } rest := by
          simp only [scanItems]
          rw [hstepEq]
        obtain ⟨s', h1, h2, h3, h4, h5, h6, extra, he1, he2, he3⟩ := ih
          { s with errorMessages :=
            s.errorMessages ++ ["Insufficient inventory for product: " ++ product.name] } hwf hqrest
        refine ⟨s', by rw [hskip]; exact h1, h2, h3, h4, h5, h6,
          ⟨("Insufficient inventory for product: " ++ product.name) :: extra, ?_, ?_, ?_⟩⟩
        · rw [he1]
          simp
        · simp only [List.length_cons]
          omega
        · intro _
          simp
      · have havail : product.inventory.available =
            max 0 (product.inventory.quantity - product.inventory.reserved) := hinv.2.2
        have hge : item.quantity ≤ product.inventory.available := not_lt.1 hlt
        have hqr : item.quantity ≤ product.inventory.quantity - product.inventory.reserved := by
          rcases max_choice 0 (product.inventory.quantity - product.inventory.reserved)
            with hm | hm <;> rw [havail, hm] at hge <;> omega
        have hr0 : (0 : Int) ≤ product.inventory.reserved := hinv.2.1
        have hv : invValid ({ product with inventory :=
            { product.inventory with
                reserved := product.inventory.reserved + item.quantity,
                available := product.inventory.quantity -
                  (product.inventory.reserved + item.quantity) } } : Product).inventory := by
          refine ⟨hinv.1, ?_, ?_⟩
          · show (0 : Int) ≤ product.inventory.reserved + item.quantity
            omega
          · show (0 : Int) ≤ product.inventory.quantity -
              (product.inventory.reserved + item.quantity)
            omega
        have hstepEq : scanStep s item = ({
            db := storeProduct s.db (applyPreSave { product with inventory :=
              { product.inventory with
                  reserved := product.inventory.reserved + item.quantity,
                  available := product.inventory.quantity -
                    (product.inventory.reserved + item.quantity) } }),
            orderItems := s.orderItems ++
              [{ product := product.id, name := product.name, price := product.price,
                 quantity := item.quantity, variant := item.variant }],
            subtotal := s.subtotal + product.price * (item.quantity : Rat),
            errorMessages := s.errorMessages }, none) := by
          unfold scanStep
          rw [hfind]
          dsimp only
          rw [if_neg hlt, productSave_of_valid hv]
        have hskip : scanItems s (item :: rest) = scanItems {
            db := storeProduct s.db (applyPreSave { product with inventory :=
              { product.inventory with
                  reserved := product.inventory.reserved + item.quantity,
                  available := product.inventory.quantity -
                    (product.inventory.reserved + item.quantity) } }),
            orderItems := s.orderItems ++
              [{ product := product.id, name := product.name, price := product.price,
                 quantity := item.quantity, variant := item.variant }],
            subtotal := s.subtotal + product.price * (item.quantity : Rat),
            errorMessages := s.errorMessages } rest := by
          simp only [scanItems]
          rw [hstepEq]
        have hpid : product.id = item.product := findById_id hfind
        have hsid : (applyPreSave { product with inventory :=
            { product.inventory with
                reserved := product.inventory.reserved + item.quantity,
                available := product.inventory.quantity -
                  (product.inventory.reserved + item.quantity) } }).id = item.product := hpid
        have hfind1 : findById s.db (applyPreSave { product with inventory :=
            { product.inventory with
                reserved := product.inventory.reserved + item.quantity,
                available := product.inventory.quantity -
                  (product.inventory.reserved + item.quantity) } }).id = some product := by
          rw [hsid]
          exact hfind
        have hwf1 : DBWF (storeProduct s.db (applyPreSave { product with inventory :=
            { product.inventory with
                reserved := product.inventory.reserved + item.quantity,
                available := product.inventory.quantity -
                  (product.inventory.reserved + item.quantity) } })) :=
          DBWF_storeProduct hwf (productSave_invOk hv)
        have hex1 : ∀ pid, existsIn (storeProduct s.db (applyPreSave { product with inventory :=
            { product.inventory with
                reserved := product.inventory.reserved + item.quantity,
                available := product.inventory.quantity -
                  (product.inventory.reserved + item.quantity) } })) pid = existsIn s.db pid :=
          fun pid => existsIn_storeProduct s.db _ pid
        have hres1self : reservedOf (storeProduct s.db (applyPreSave { product with inventory :=
            { product.inventory with
                reserved := product.inventory.reserved + item.quantity,
                available := product.inventory.quantity -
                  (product.inventory.reserved + item.quantity) } })) item.product
            = product.inventory.reserved + item.quantity := by
          rw [← hsid, reservedOf_storeProduct_self hfind1]
          rfl
        have hqty1self : quantityOf (storeProduct s.db (applyPreSave { product with inventory :=
            { product.inventory with
                reserved := product.inventory.reserved + item.quantity,
                available := product.inventory.quantity -
                  (product.inventory.reserved + item.quantity) } })) item.product
            = product.inventory.quantity := by
          rw [← hsid, quantityOf_storeProduct_self hfind1]
          rfl
        have hav1self : availableOf (storeProduct s.db (applyPreSave { product with inventory :=
            { product.inventory with
                reserved := product.inventory.reserved + item.quantity,
                available := product.inventory.quantity -
                  (product.inventory.reserved + item.quantity) } })) item.product
            = max 0 (product.inventory.quantity -
                (product.inventory.reserved + item.quantity)) := by
          rw [← hsid, availableOf_storeProduct_self hfind1]
          rfl
        have hres1ne : ∀ pid, ¬ item.product = pid →
            reservedOf (storeProduct s.db (applyPreSave { product with inventory :=
            { product.inventory with
                reserved := product.inventory.reserved + item.quantity,
                available := product.inventory.quantity -
                  (product.inventory.reserved + item.quantity) } })) pid = reservedOf s.db pid := by
          intro pid hne
          exact reservedOf_storeProduct_ne s.db (by rw [hsid]; exact hne)
        have hqty1ne : ∀ pid, ¬ item.product = pid →
            quantityOf (storeProduct s.db (applyPreSave { product with inventory :=
            { product.inventory with
                reserved := product.inventory.reserved + item.quantity,
                available := product.inventory.quantity -
                  (product.inventory.reserved + item.quantity) } })) pid = quantityOf s.db pid := by
          intro pid hne
          exact quantityOf_storeProduct_ne s.db (by rw [hsid]; exact hne)
        have hav1ne : ∀ pid, ¬ item.product = pid →
            availableOf (storeProduct s.db (applyPreSave { product with inventory :=
            { product.inventory with
                reserved := product.inventory.reserved + item.quantity,
                available := product.inventory.quantity -
                  (product.inventory.reserved + item.quantity) } })) pid = availableOf s.db pid := by
          intro pid hne
          exact availableOf_storeProduct_ne s.db (by rw [hsid]; exact hne)
        obtain ⟨s', h1, h2, h3, h4, h5, h6, extra, he1, he2, he3⟩ := ih {
            db := storeProduct s.db (applyPreSave { product with inventory :=
              { product.inventory with
                  reserved := product.inventory.reserved + item.quantity,
                  available := product.inventory.quantity -
                    (product.inventory.reserved + item.quantity) } }),
            orderItems := s.orderItems ++
              [{ product := product.id, name := product.name, price := product.price,
                 quantity := item.quantity, variant := item.variant }],
            subtotal := s.subtotal + product.price * (item.quantity : Rat),
            errorMessages := s.errorMessages } hwf1 hqrest
        refine ⟨s', by rw [hskip]; exact h1, h2, ?_, ?_, ?_, ?_, ⟨extra, ?_, ?_, ?_⟩⟩
        · intro pid
          rw [h3 pid]
          by_cases hcase : item.product = pid
          · rw [← hcase, hqty1self, quantityOf_eq_of_findById hfind]
          · rw [hqty1ne pid hcase]
        · intro pid
          rw [h4 pid, hex1 pid]
        · intro pid
          refine le_trans ?_ (h5 pid)
          by_cases hcase : item.product = pid
          · rw [← hcase, hres1self, reservedOf_eq_of_findById hfind]
            omega
          · rw [hres1ne pid hcase]
        · intro pid
          refine le_trans (h6 pid) ?_
          by_cases hcase : item.product = pid
          · rw [← hcase, hav1self, availableOf_eq_of_findById hfind, havail]
            refine max_le_max le_rfl ?_
            omega
          · rw [hav1ne pid hcase]
        · exact he1
        · simp only [List.length_cons]
          omega
        · intro hfl
          obtain ⟨it, hit, hflit⟩ := hfl
          rcases List.mem_cons.1 hit with hit1 | hit2
          · exfalso
            have hfalse : itemFails s.db item = false := by
              unfold itemFails
              rw [hfind]
              exact decide_eq_false hlt
            rw [hit1] at hflit
            rw [hflit] at hfalse
            exact absurd hfalse (by decide)
          · refine he3 ⟨it, hit2, ?_⟩
            rcases itemFails_true_iff.1 hflit with hnone | ⟨hex, hav⟩
            · refine itemFails_true_iff.2 (Or.inl ?_)
              rw [hex1 it.product]
              exact hnone
            · refine itemFails_true_iff.2 (Or.inr ⟨?_, ?_⟩)
              · rw [hex1 it.product]
                exact hex
              · refine lt_of_le_of_lt ?_ hav
                by_cases hcase : item.product = it.product
                · rw [← hcase, hav1self, availableOf_eq_of_findById hfind, havail]
                  exact max_le_max le_rfl (by omega)
                · rw [hav1ne it.product hcase]

theorem scanItems_success (items : List ReqItem) :
    ∀ (s s' : ScanState), DBWF s.db → (∀ it ∈ items, 1 ≤ it.quantity) →
      scanItems s items = (s', none) →
      s'.errorMessages.length = s.errorMessages.length →
      DBWF s'.db ∧
      (∀ pid, quantityOf s'.db pid = quantityOf s.db pid) ∧
      (∀ pid, existsIn s'.db pid = existsIn s.db pid) ∧
      (∀ pid, reservedOf s'.db pid = reservedOf s.db pid + reqQty items pid) ∧
      (∀ pid, 0 < reqQty items pid →
        reservedOf s'.db pid ≤ quantityOf s'.db pid ∧ existsIn s.db pid = true) ∧
      (∀ pid, ordQty s'.orderItems pid = ordQty s.orderItems pid + reqQty items pid) ∧
      (s'.subtotal - itemsSubtotal s'.orderItems = s.subtotal - itemsSubtotal s.orderItems) ∧
      ((∀ it ∈ s.orderItems, 1 ≤ it.quantity) → ∀ it ∈ s'.orderItems, 1 ≤ it.quantity) ∧
      ((∀ it ∈ s.orderItems, existsIn s.db it.product = true) →
        ∀ it ∈ s'.orderItems, existsIn s'.db it.product = true) := by
  induction items with
  | nil =>
    intro s s' hwf _ hscan hlen
    simp only [scanItems] at hscan
    injection hscan with h1 h2
    subst h1
    refine ⟨hwf, fun _ => rfl, fun _ => rfl, fun pid => by rw [reqQty_nil]; omega,
      fun pid hpos => by rw [reqQty_nil] at hpos; omega,
      fun pid => by rw [reqQty_nil]; omega, by ring, fun h => h, fun h => h⟩
  | cons item rest ih =>
    intro s s' hwf hq hscan hlen
    have hq1 : (1 : Int) ≤ item.quantity := hq item (by simp)
    have hqrest : ∀ it ∈ rest, (1 : Int) ≤ it.quantity := fun j hj => hq j (by simp [hj])
    cases hfind : findById s.db item.product with
    | none =>
      exfalso
      have hstepEq : scanStep s item = ({ s with errorMessages :=
          s.errorMessages ++ ["Product not found with ID: " ++ toString item.product] },
          none) := by
        unfold scanStep
        rw [hfind]
      have hskip : scanItems s (item :: rest) = scanItems { s with errorMessages :=
          s.errorMessages ++ ["Product not found with ID: " ++ toString item.product] } rest := by
        simp only [scanItems]
        rw [hstepEq]
      rw [hskip] at hscan
      obtain ⟨s'', heq, _, _, _, _, _, extra, he1, _, _⟩ := scanItems_total rest
        { s with errorMessages :=
          s.errorMessages ++ ["Product not found with ID: " ++ toString item.product] } hwf hqrest
      rw [hscan] at heq
      injection heq with h1 _
      subst h1
      have := congrArg List.length he1
      simp only [List.length_append, List.length_cons, List.length_nil] at this
      omega
    | some product =>
      have hexT : existsIn s.db item.product = true := existsIn_true_of_findById hfind
      have hinv := DBWF_findById hwf hfind
      by_cases hlt : product.inventory.available < item.quantity
      · exfalso
        have hstepEq : scanStep s item = ({ s with errorMessages :=
            s.errorMessages ++ ["Insufficient inventory for product: " ++ product.name] },
            none) := by
          unfold scanStep
          rw [hfind]
          dsimp only
          rw [if_pos hlt]
        have hskip : scanItems s (item :: rest) = scanItems { s with errorMessages :=
            s.errorMessages ++ ["Insufficient inventory for product: " ++ product.name] } rest := by
          simp only [scanItems]
          rw [hstepEq]
        rw [hskip] at hscan
        obtain ⟨s'', heq, _, _, _, _, _, extra, he1, _, _⟩ := scanItems_total rest
          { s with errorMessages :=
            s.errorMessages ++ ["Insufficient inventory for product: " ++ product.name] } hwf hqrest
        rw [hscan] at heq
        injection heq with h1 _
        subst h1
        have := congrArg List.length he1
        simp only [List.length_append, List.length_cons, List.length_nil] at this
        omega
      · have havail : product.inventory.available =
            max 0 (product.inventory.quantity - product.inventory.reserved) := hinv.2.2
        have hge : item.quantity ≤ product.inventory.available := not_lt.1 hlt
        have hqr : item.quantity ≤ product.inventory.quantity - product.inventory.reserved := by
          rcases max_choice 0 (product.inventory.quantity - product.inventory.reserved)
            with hm | hm <;> rw [havail, hm] at hge <;> omega
        have hr0 : (0 : Int) ≤ product.inventory.reserved := hinv.2.1
        have hv : invValid ({ product with inventory :=
            { product.inventory with
                reserved := product.inventory.reserved + item.quantity,
                available := product.inventory.quantity -
                  (product.inventory.reserved + item.quantity) } } : Product).inventory := by
          refine ⟨hinv.1, ?_, ?_⟩
          · show (0 : Int) ≤ product.inventory.reserved + item.quantity
            omega
          · show (0 : Int) ≤ product.inventory.quantity -
              (product.inventory.reserved + item.quantity)
            omega
        have hstepEq : scanStep s item = ({
            db := storeProduct s.db (applyPreSave { product with inventory :=
              { product.inventory with
                  reserved := product.inventory.reserved + item.quantity,
                  available := product.inventory.quantity -
                    (product.inventory.reserved + item.quantity) } }),
            orderItems := s.orderItems ++
              [{ product := product.id, name := product.name, price := product.price,
                 quantity := item.quantity, variant := item.variant }],
            subtotal := s.subtotal + product.price * (item.quantity : Rat),
            errorMessages := s.errorMessages }, none) := by
          unfold scanStep
          rw [hfind]
          dsimp only
          rw [if_neg hlt, productSave_of_valid hv]
        have hskip : scanItems s (item :: rest) = scanItems {
            db := storeProduct s.db (applyPreSave { product with inventory :=
              { product.inventory with
                  reserved := product.inventory.reserved + item.quantity,
                  available := product.inventory.quantity -
                    (product.inventory.reserved + item.quantity) } }),
            orderItems := s.orderItems ++
              [{ product := product.id, name := product.name, price := product.price,
                 quantity := item.quantity, variant := item.variant }],
            subtotal := s.subtotal + product.price * (item.quantity : Rat),
            errorMessages := s.errorMessages } rest := by
          simp only [scanItems]
          rw [hstepEq]
        rw [hskip] at hscan
        have hpid : product.id = item.product := findById_id hfind
        have hsid : (applyPreSave { product with inventory :=
            { product.inventory with
                reserved := product.inventory.reserved + item.quantity,
                available := product.inventory.quantity -
                  (product.inventory.reserved + item.quantity) } }).id = item.product := hpid
        have hfind1 : findById s.db (applyPreSave { product with inventory :=
            { product.inventory with
                reserved := product.inventory.reserved + item.quantity,
                available := product.inventory.quantity -
                  (product.inventory.reserved + item.quantity) } }).id = some product := by
          rw [hsid]
          exact hfind
        have hwf1 : DBWF (storeProduct s.db (applyPreSave { product with inventory :=
            { product.inventory with
                reserved := product.inventory.reserved + item.quantity,
                available := product.inventory.quantity -
                  (product.inventory.reserved + item.quantity) } })) :=
          DBWF_storeProduct hwf (productSave_invOk hv)
        have hex1 : ∀ pid, existsIn (storeProduct s.db (applyPreSave { product with inventory :=
            { product.inventory with
                reserved := product.inventory.reserved + item.quantity,
                available := product.inventory.quantity -
                  (product.inventory.reserved + item.quantity) } })) pid = existsIn s.db pid :=
          fun pid => existsIn_storeProduct s.db _ pid
        have hres1self : reservedOf (storeProduct s.db (applyPreSave { product with inventory :=
            { product.inventory with
                reserved := product.inventory.reserved + item.quantity,
                available := product.inventory.quantity -
                  (product.inventory.reserved + item.quantity) } })) item.product
            = product.inventory.reserved + item.quantity := by
          rw [← hsid, reservedOf_storeProduct_self hfind1]
          rfl
        have hqty1self : quantityOf (storeProduct s.db (applyPreSave { product with inventory :=
            { product.inventory with
                reserved := product.inventory.reserved + item.quantity,
                available := product.inventory.quantity -
                  (product.inventory.reserved + item.quantity) } })) item.product
            = product.inventory.quantity := by
          rw [← hsid, quantityOf_storeProduct_self hfind1]
          rfl
        have hres1ne : ∀ pid, ¬ item.product = pid →
            reservedOf (storeProduct s.db (applyPreSave { product with inventory :=
            { product.inventory with
                reserved := product.inventory.reserved + item.quantity,
                available := product.inventory.quantity -
                  (product.inventory.reserved + item.quantity) } })) pid = reservedOf s.db pid := by
          intro pid hne
          exact reservedOf_storeProduct_ne s.db (by rw [hsid]; exact hne)
        have hqty1ne : ∀ pid, ¬ item.product = pid →
            quantityOf (storeProduct s.db (applyPreSave { product with inventory :=
            { product.inventory with
                reserved := product.inventory.reserved + item.quantity,
                available := product.inventory.quantity -
                  (product.inventory.reserved + item.quantity) } })) pid = quantityOf s.db pid := by
          intro pid hne
          exact quantityOf_storeProduct_ne s.db (by rw [hsid]; exact hne)
        obtain ⟨ih1, ih2, ih3, ih4, ih5, ih6, ih7, ih8, ih9⟩ := ih {
            db := storeProduct s.db (applyPreSave { product with inventory :=
              { product.inventory with
                  reserved := product.inventory.reserved + item.quantity,
                  available := product.inventory.quantity -
                    (product.inventory.reserved + item.quantity) } }),
            orderItems := s.orderItems ++
              [{ product := product.id, name := product.name, price := product.price,
                 quantity := item.quantity, variant := item.variant }],
            subtotal := s.subtotal + product.price * (item.quantity : Rat),
            errorMessages := s.errorMessages } s' hwf1 hqrest hscan hlen
        dsimp only at ih2 ih3 ih4 ih5 ih6 ih7 ih8 ih9
        refine ⟨ih1, ?_, ?_, ?_, ?_, ?_, ?_, ?_, ?_⟩
        · intro pid
          rw [ih2 pid]
          by_cases hcase : item.product = pid
          · rw [← hcase, hqty1self, quantityOf_eq_of_findById hfind]
          · rw [hqty1ne pid hcase]
        · intro pid
          rw [ih3 pid, hex1 pid]
        · intro pid
          rw [ih4 pid, reqQty_cons]
          by_cases hcase : item.product = pid
          · rw [← hcase, hres1self, reservedOf_eq_of_findById hfind, if_pos rfl]
            omega
          · rw [hres1ne pid hcase, if_neg hcase]
            omega
        · intro pid hpos
          by_cases hcase : item.product = pid
          · subst hcase
            refine ⟨?_, hexT⟩
            have hnn : 0 ≤ reqQty rest item.product :=
              reqQty_nonneg (fun j hj => by have := hqrest j hj; omega) item.product
            rcases eq_or_lt_of_le hnn with heq0 | hpos2
            · have e1 := ih4 item.product
              have e2 := ih2 item.product
              rw [← heq0, hres1self] at e1
              rw [hqty1self] at e2
              omega
            · exact (ih5 item.product hpos2).1
          · rw [reqQty_cons, if_neg hcase] at hpos
            obtain ⟨hle, hex⟩ := ih5 pid (by omega)
            refine ⟨hle, ?_⟩
            rw [← hex1 pid]
            exact hex
        · intro pid
          rw [ih6 pid, ordQty_append, ordQty_cons, ordQty_nil, reqQty_cons]
          dsimp only
          rw [hpid]
          omega
        · rw [ih7, itemsSubtotal_append]
          dsimp only
          ring
        · intro hbase it hit
          refine ih8 ?_ it hit
          intro j hj
          rcases List.mem_append.1 hj with hj1 | hj2
          · exact hbase j hj1
          · obtain rfl := List.mem_singleton.1 hj2
            exact hq1
        · intro hbase it hit
          refine ih9 ?_ it hit
          intro j hj
          rcases List.mem_append.1 hj with hj1 | hj2
          · rw [hex1 j.product]
            exact hbase j hj1
          · obtain rfl := List.mem_singleton.1 hj2
            show existsIn _ product.id = true
            rw [hex1 product.id, hpid]
            exact hexT

/-! ### Packaged facts about createOrder -/

theorem createOrder_ok {db db' : DB} {uid oid : Nat} {items : List ReqItem}
    {sm : String} {notes : Option String} {order : Order}
    (hwf : DBWF db) (hq : ∀ it ∈ items, 1 ≤ it.quantity)
    (hok : createOrder db uid oid items sm notes = (db', Except.ok order)) :
    DBWF db' ∧
    (∀ pid, quantityOf db' pid = quantityOf db pid) ∧
    (∀ pid, existsIn db' pid = existsIn db pid) ∧
    (∀ pid, reservedOf db' pid = reservedOf db pid + reqQty items pid) ∧
    (∀ pid, 0 < reqQty items pid →
      reservedOf db' pid ≤ quantityOf db' pid ∧ existsIn db pid = true) ∧
    (∀ pid, ordQty order.items pid = reqQty items pid) ∧
    (∀ it ∈ order.items, 1 ≤ it.quantity) ∧
    (∀ it ∈ order.items, existsIn db' it.product = true) ∧
    order.status = OrderStatus.pending ∧
    order.paymentStatus = PaymentStatus.pending ∧
    order.subtotal = itemsSubtotal order.items ∧
    order.shippingCost = calculateShippingCost sm ∧
    order.tax = calculateTax order.subtotal ∧
    order.totalAmount = order.subtotal + order.shippingCost + order.tax := by
  unfold createOrder at hok
  by_cases hlen0 : items.length = 0
  · rw [if_pos hlen0] at hok
    simp at hok
  · rw [if_neg hlen0] at hok
    rcases hscan :
      scanItems { db := db, orderItems := [], subtotal := 0, errorMessages := [] } items
      with ⟨s, othrow⟩
    rw [hscan] at hok
    cases othrow with
    | some e =>
      simp at hok
    | none =>
      have hok2 : (if s.errorMessages.length > 0 then (s.db, (Except.error (ControllerError.api 400 ("Order validation failed") s.errorMessages) : Except ControllerError Order)) else (s.db, Except.ok (orderPreSave { id := oid, user := uid, items := s.orderItems, shippingMethod := sm, shippingCost := calculateShippingCost sm, subtotal := s.subtotal, tax := calculateTax s.subtotal, totalAmount := s.subtotal + calculateShippingCost sm + calculateTax s.subtotal, status := OrderStatus.pending, paymentStatus := PaymentStatus.pending, paymentDetails := none, trackingNumber := none, notes := notes }))) = (db', Except.ok order) := hok
      by_cases herr : s.errorMessages.length > 0
      · rw [if_pos herr] at hok2
        simp at hok2
      · rw [if_neg herr] at hok2
        have hdb := congrArg Prod.fst hok2
        have hordEq := congrArg Prod.snd hok2
        dsimp only at hdb hordEq
        injection hordEq with hord2
        subst hdb
        subst hord2
        have hlen : s.errorMessages.length =
            ({ db := db, orderItems := [], subtotal := 0, errorMessages := [] } :
              ScanState).errorMessages.length := by
          dsimp only
          simp only [List.length_nil]
          omega
        obtain ⟨w1, w2, w3, w4, w5, w6, w7, w8, w9⟩ :=
          scanItems_success items _ s hwf hq hscan hlen
        dsimp only at w2 w3 w4 w5 w6 w7 w8 w9
        have hsub : s.subtotal = itemsSubtotal s.orderItems := by
          have h7 := w7
          have hnil : itemsSubtotal ([] : List OrderItem) = 0 := rfl
          rw [hnil] at h7
          have h0 : s.subtotal - itemsSubtotal s.orderItems = 0 := by
            rw [h7]
            ring
          exact sub_eq_zero.1 h0
        refine ⟨w1, w2, w3, w4, w5, ?_, ?_, ?_, rfl, rfl, rfl, rfl, ?_, rfl⟩
        · intro pid
          show ordQty s.orderItems pid = reqQty items pid
          rw [w6 pid, ordQty_nil]
          omega
        · intro it hit
          exact w8 (fun j hj => by simp at hj) it hit
        · intro it hit
          exact w9 (fun j hj => by simp at hj) it hit
        · show calculateTax s.subtotal = calculateTax (itemsSubtotal s.orderItems)
          rw [hsub]

/-! ### Claim C1 -/

/-- C1: a create-order request containing a failing item (missing product or
insufficient availability) is rejected as a whole with the 400
`Order validation failed` error carrying the accumulated per-item messages
(at least one, at most one per item), while reservations applied to valid
items of the same request are kept: no product's reserved counter decreases,
and when the first item of the request is valid its product's reserved
counter remains increased by that item's quantity after the rejection. -/
theorem createOrder_rejects_but_keeps_reservations
    (db : DB) (uid oid : Nat) (items : List ReqItem) (sm : String) (notes : Option String)
    (hwf : DBWF db)
    (hq : ∀ it ∈ items, 1 ≤ it.quantity)
    (hfail : ∃ it ∈ items, itemFails db it = true) :
    ∃ db' msgs, createOrder db uid oid items sm notes =
        (db', Except.error (ControllerError.api 400 ("Order validation failed") msgs)) ∧
      msgs ≠ [] ∧
      msgs.length ≤ items.length ∧
      (∀ pid, reservedOf db pid ≤ reservedOf db' pid) ∧
      (∀ it0, items.head? = some it0 → itemFails db it0 = false →
        reservedOf db it0.product + it0.quantity ≤ reservedOf db' it0.product) := by
  obtain ⟨s', hscaneq, hwfS, hq3, hex3, hres3, hav3, extra, he1, he2, he3⟩ :=
    scanItems_total items
      { db := db, orderItems := [], subtotal := 0, errorMessages := [] } hwf hq
  have hextra : extra ≠ [] := he3 hfail
  have hmsgs : s'.errorMessages = extra := by
    rw [he1]
    rfl
  have hgt : s'.errorMessages.length > 0 := by
    rw [hmsgs]
    exact List.length_pos.2 hextra
  have hlen0 : ¬ items.length = 0 := by
    obtain ⟨it, hit, _⟩ := hfail
    intro h
    rw [List.length_eq_zero] at h
    rw [h] at hit
    simp at hit
  have hrun : createOrder db uid oid items sm notes =
      (s'.db, Except.error (ControllerError.api 400 ("Order validation failed")
        s'.errorMessages)) := by
    unfold createOrder
    rw [if_neg hlen0, hscaneq]
    show (if s'.errorMessages.length > 0 then (s'.db, (Except.error (ControllerError.api 400 ("Order validation failed") s'.errorMessages) : Except ControllerError Order)) else (s'.db, Except.ok (orderPreSave { id := oid, user := uid, items := s'.orderItems, shippingMethod := sm, shippingCost := calculateShippingCost sm, subtotal := s'.subtotal, tax := calculateTax s'.subtotal, totalAmount := s'.subtotal + calculateShippingCost sm + calculateTax s'.subtotal, status := OrderStatus.pending, paymentStatus := PaymentStatus.pending, paymentDetails := none, trackingNumber := none, notes := notes }))) = (s'.db, Except.error (ControllerError.api 400 ("Order validation failed") s'.errorMessages))
    rw [if_pos hgt]
  refine ⟨s'.db, s'.errorMessages, hrun, by rw [hmsgs]; exact hextra, ?_, hres3, ?_⟩
  · rw [hmsgs]
    exact he2
  · intro it0 hhead hok0
    cases items with
    | nil => simp at hhead
    | cons item rest =>
      have hit0 : item = it0 := by
        simpa using hhead
      subst hit0
      cases hfind : findById db item.product with
      | none =>
        exfalso
        unfold itemFails at hok0
        rw [hfind] at hok0
        simp at hok0
      | some product =>
        have hlt : ¬ product.inventory.available < item.quantity := by
          unfold itemFails at hok0
          rw [hfind] at hok0
          simpa using hok0
        have hq1 : (1 : Int) ≤ item.quantity := hq item (by simp)
        have hqrest : ∀ it ∈ rest, (1 : Int) ≤ it.quantity := fun j hj => hq j (by simp [hj])
        have hinv := DBWF_findById hwf hfind
        have havail : product.inventory.available =
            max 0 (product.inventory.quantity - product.inventory.reserved) := hinv.2.2
        have hge : item.quantity ≤ product.inventory.available := not_lt.1 hlt
        have hqr : item.quantity ≤ product.inventory.quantity - product.inventory.reserved := by
          rcases max_choice 0 (product.inventory.quantity - product.inventory.reserved)
            with hm | hm <;> rw [havail, hm] at hge <;> omega
        have hr0 : (0 : Int) ≤ product.inventory.reserved := hinv.2.1
        have hv : invValid ({ product with inventory :=
            { product.inventory with
                reserved := product.inventory.reserved + item.quantity,
                available := product.inventory.quantity -
                  (product.inventory.reserved + item.quantity) } } : Product).inventory := by
          refine ⟨hinv.1, ?_, ?_⟩
          · show (0 : Int) ≤ product.inventory.reserved + item.quantity
            omega
          · show (0 : Int) ≤ product.inventory.quantity -
              (product.inventory.reserved + item.quantity)
            omega
        have hstepEq : scanStep { db := db, orderItems := [], subtotal := 0, errorMessages := [] } item = ({
            db := storeProduct db (applyPreSave { product with inventory :=
              { product.inventory with
                  reserved := product.inventory.reserved + item.quantity,
                  available := product.inventory.quantity -
                    (product.inventory.reserved + item.quantity) } }),
            orderItems := [{
              product := product.id, name := product.name,
              price := product.price, quantity := item.quantity, variant := item.variant }],
            subtotal := 0 + product.price * (item.quantity : Rat),
            errorMessages := [] }, none) := by
          unfold scanStep
          rw [show findById ({ db := db, orderItems := [], subtotal := 0, errorMessages := [] } : ScanState).db item.product = some product from hfind]
          dsimp only
          rw [if_neg hlt, productSave_of_valid hv]
          rfl
        have hskip : scanItems { db := db, orderItems := [], subtotal := 0, errorMessages := [] } (item :: rest) = scanItems {
            db := storeProduct db (applyPreSave { product with inventory :=
              { product.inventory with
                  reserved := product.inventory.reserved + item.quantity,
                  available := product.inventory.quantity -
                    (product.inventory.reserved + item.quantity) } }),
            orderItems := [{
              product := product.id, name := product.name,
              price := product.price, quantity := item.quantity, variant := item.variant }],
            subtotal := 0 + product.price * (item.quantity : Rat),
            errorMessages := [] } rest := by
          simp only [scanItems]
          rw [hstepEq]
        have hpid : product.id = item.product := findById_id hfind
        have hsid : (applyPreSave { product with inventory :=
            { product.inventory with
                reserved := product.inventory.reserved + item.quantity,
                available := product.inventory.quantity -
                  (product.inventory.reserved + item.quantity) } }).id = item.product := hpid
        have hfind1 : findById db (applyPreSave { product with inventory :=
            { product.inventory with
                reserved := product.inventory.reserved + item.quantity,
                available := product.inventory.quantity -
                  (product.inventory.reserved + item.quantity) } }).id = some product := by
          rw [hsid]
          exact hfind
        have hwf1 : DBWF (storeProduct db (applyPreSave { product with inventory :=
            { product.inventory with
                reserved := product.inventory.reserved + item.quantity,
                available := product.inventory.quantity -
                  (product.inventory.reserved + item.quantity) } })) :=
          DBWF_storeProduct hwf (productSave_invOk hv)
        have hres1self : reservedOf (storeProduct db (applyPreSave { product with inventory :=
            { product.inventory with
                reserved := product.inventory.reserved + item.quantity,
                available := product.inventory.quantity -
                  (product.inventory.reserved + item.quantity) } })) item.product
            = product.inventory.reserved + item.quantity := by
          rw [← hsid, reservedOf_storeProduct_self hfind1]
          rfl
        obtain ⟨s'', hscaneq2, _, _, _, hres4, _, _, _, _, _⟩ :=
          scanItems_total rest {
            db := storeProduct db (applyPreSave { product with inventory :=
              { product.inventory with
                  reserved := product.inventory.reserved + item.quantity,
                  available := product.inventory.quantity -
                    (product.inventory.reserved + item.quantity) } }),
            orderItems := [{
              product := product.id, name := product.name,
              price := product.price, quantity := item.quantity, variant := item.variant }],
            subtotal := 0 + product.price * (item.quantity : Rat),
            errorMessages := [] } hwf1 hqrest
        rw [hskip] at hscaneq
        rw [hscaneq] at hscaneq2
        injection hscaneq2 with hseq _
        subst hseq
        have hres5 := hres4 item.product
        dsimp only at hres5
        rw [hres1self] at hres5
        rw [reservedOf_eq_of_findById hfind]
        exact hres5

/-- C1 witness data: one product, a request whose first item is valid and
whose second item refers to a missing product. -/
def dbC1 : DB :=
  [{ id := 1, name := "Widget", price := 10,
     inventory := { quantity := 10, reserved := 0, available := 10 } }]

def itemsC1 : List ReqItem :=
  [{ product := 1, quantity := 2, variant := none },
   { product := 2, quantity := 1, variant := none }]

/-- Witness for C1: the concrete request is rejected with the accumulated
message list while the first item's reservation is kept. -/
theorem createOrder_rejects_but_keeps_reservations_witness :
    ∃ db' msgs, createOrder dbC1 7 100 itemsC1 ("standard") none =
        (db', Except.error (ControllerError.api 400 ("Order validation failed") msgs)) ∧
      msgs ≠ [] ∧
      msgs.length ≤ itemsC1.length ∧
      (∀ pid, reservedOf dbC1 pid ≤ reservedOf db' pid) ∧
      (∀ it0, itemsC1.head? = some it0 → itemFails dbC1 it0 = false →
        reservedOf dbC1 it0.product + it0.quantity ≤ reservedOf db' it0.product) :=
  createOrder_rejects_but_keeps_reservations dbC1 7 100 itemsC1 ("standard") none
    (by decide) (by decide)
    ⟨{ product := 2, quantity := 1, variant := none }, by decide, by decide⟩

/-! ### Reduction lemmas for the status-update and delete handlers -/

theorem updateOrder_cancel_eq {db : DB} {order : Order} {tn : Option String}
    (hst : ¬ order.status = OrderStatus.cancelled) :
    updateOrder db order { status := some OrderStatus.cancelled, trackingNumber := tn } =
      (match releaseItems db order.items with
       | (db', none) => (db', Except.ok (applyUpdates order
           { status := some OrderStatus.cancelled, trackingNumber := tn }))
       | (db', some e) => (db', Except.error e)) := by
  unfold updateOrder
  dsimp only
  rw [if_neg (fun h => hst h.symm)]

theorem updateOrder_shipped_eq {db : DB} {order : Order} {tn : Option String}
    (hst : ¬ order.status = OrderStatus.shipped) :
    updateOrder db order { status := some OrderStatus.shipped, trackingNumber := tn } =
      (match consumeItems db order.items with
       | (db', none) => (db', Except.ok (applyUpdates order
           { status := some OrderStatus.shipped, trackingNumber := tn }))
       | (db', some e) => (db', Except.error e)) := by
  unfold updateOrder
  dsimp only
  rw [if_neg (fun h => hst h.symm)]

theorem updateOrder_same_status {db : DB} {order : Order} {tn : Option String}
    {st : OrderStatus} (hst : st = order.status) :
    updateOrder db order { status := some st, trackingNumber := tn } =
      (db, Except.ok (applyUpdates order { status := some st, trackingNumber := tn })) := by
  unfold updateOrder
  dsimp only
  rw [if_pos hst]

theorem deleteOrder_pending_eq {db : DB} {order : Order}
    (hst : order.status = OrderStatus.pending) :
    deleteOrder db order =
      (match releaseItems db order.items with
       | (db', none) => (db', Except.ok ())
       | (db', some e) => (db', Except.error e)) := by
  unfold deleteOrder
  rw [if_pos hst]

theorem deleteOrder_nonpending_eq {db : DB} {order : Order}
    (hst : ¬ order.status = OrderStatus.pending) :
    deleteOrder db order =
      (db, Except.error (ControllerError.api 400 ("Only pending orders can be deleted") [])) := by
  unfold deleteOrder
  rw [if_neg hst]

/-- C8: a payment-status update sets `paymentStatus` to the supplied value,
auto-advances a pending order to `processing` exactly when the new value is
`paid`, leaves every other order field that the handler does not touch
unchanged, and never changes the products collection. -/
theorem updateOrderPayment_spec (db : DB) (order : Order) (ps : PaymentStatus)
    (pd : Option (List (String × String))) :
    (updateOrderPayment db order ps pd).1 = db ∧
    (updateOrderPayment db order ps pd).2.paymentStatus = ps ∧
    (updateOrderPayment db order ps pd).2.status =
      (if ps = PaymentStatus.paid ∧ order.status = OrderStatus.pending then
        OrderStatus.processing
      else order.status) ∧
    (updateOrderPayment db order ps pd).2.items = order.items ∧
    (updateOrderPayment db order ps pd).2.subtotal = order.subtotal ∧
    (updateOrderPayment db order ps pd).2.totalAmount = order.totalAmount ∧
    (∀ pid, reservedOf (updateOrderPayment db order ps pd).1 pid = reservedOf db pid) ∧
    (∀ pid, quantityOf (updateOrderPayment db order ps pd).1 pid = quantityOf db pid) ∧
    (∀ pid, availableOf (updateOrderPayment db order ps pd).1 pid = availableOf db pid) := by
  unfold updateOrderPayment
  by_cases hc : ps = PaymentStatus.paid ∧ order.status = OrderStatus.pending
  · cases pd <;> simp [hc]
  · cases pd <;> simp [hc]

/-! ### Claim C2 -/

/-- C2 counterexample data: a product with other reservations outstanding
(reserved 6 of 10) and a pending order holding 3 of them. -/
def dbC2 : DB :=
  [{ id := 1, name := "Widget", price := 10,
     inventory := { quantity := 10, reserved := 6, available := 4 } }]

def orderC2 : Order :=
  { id := 100, user := 7,
    items := [{ product := 1, name := "Widget", price := 10, quantity := 3, variant := none }],
    shippingMethod := "standard", shippingCost := 5.99, subtotal := 30, tax := 2.1,
    totalAmount := 38.09, status := OrderStatus.pending,
    paymentStatus := PaymentStatus.pending, paymentDetails := none,
    trackingNumber := none, notes := none }

/-- First step of the C2 counterexample run: cancel the pending order. -/
def stepC2a : DB × Except ControllerError Order :=
  updateOrder dbC2 orderC2 { status := some OrderStatus.cancelled, trackingNumber := none }

def orderC2a : Order :=
  match stepC2a.2 with
  | Except.ok o => o
  | Except.error _ => orderC2

/-- Second step: move the cancelled order to `processing`. -/
def stepC2b : DB × Except ControllerError Order :=
  updateOrder stepC2a.1 orderC2a { status := some OrderStatus.processing, trackingNumber := none }

def orderC2b : Order :=
  match stepC2b.2 with
  | Except.ok o => o
  | Except.error _ => orderC2

/-- Third step: cancel again. -/
def stepC2c : DB × Except ControllerError Order :=
  updateOrder stepC2b.1 orderC2b { status := some OrderStatus.cancelled, trackingNumber := none }

/-- C2 counterexample: cancellation is not idempotent.  Cancelling the
pending order releases its 3 units (reserved 6 → 3, the pre-order value);
moving the cancelled order to `processing` and cancelling a second time
succeeds and releases the same 3 units again (reserved 3 → 0 ≠ 3), because
the guard only compares the requested status with the current status. -/
theorem cancel_double_release_counterexample :
    reservedOf dbC2 1 = 6 ∧
    ordQty orderC2.items 1 = 3 ∧
    orderC2.status = OrderStatus.pending ∧
    reservedOf stepC2a.1 1 = 3 ∧
    orderC2a.status = OrderStatus.cancelled ∧
    stepC2b.1 = stepC2a.1 ∧
    orderC2b.status = OrderStatus.processing ∧
    (stepC2c.2.isOk = true) ∧
    reservedOf stepC2c.1 1 = 0 ∧
    ¬ reservedOf stepC2c.1 1 = 3 := by
  decide

/-- C2 (amended): cancelling an order created from a pending state restores
every product's reserved, available and quantity counters to their
pre-order values, and submitting `cancelled` while the order is already
cancelled performs no release (the `updates.status !== order.status` guard);
but the guard only inspects the current status, so a sequence that leaves
`cancelled` and re-enters it releases the same reservation again (the
counterexample above). -/
theorem cancel_restores_and_direct_recancel_noop
    (db db' : DB) (uid oid : Nat) (items : List ReqItem) (sm : String)
    (notes : Option String) (order : Order) (tn : Option String)
    (hwf : DBWF db) (hq : ∀ it ∈ items, 1 ≤ it.quantity)
    (hok : createOrder db uid oid items sm notes = (db', Except.ok order)) :
    (∃ db'' o', updateOrder db' order
        { status := some OrderStatus.cancelled, trackingNumber := tn } =
          (db'', Except.ok o') ∧
       o'.status = OrderStatus.cancelled ∧
       (∀ pid, reservedOf db'' pid = reservedOf db pid) ∧
       (∀ pid, availableOf db'' pid = availableOf db pid) ∧
       (∀ pid, quantityOf db'' pid = quantityOf db pid)) ∧
    (∀ (dbx : DB) (o : Order), o.status = OrderStatus.cancelled →
       updateOrder dbx o { status := some OrderStatus.cancelled, trackingNumber := tn } =
         (dbx, Except.ok (applyUpdates o
           { status := some OrderStatus.cancelled, trackingNumber := tn }))) := by
  obtain ⟨w1, w2, w3, w4, w5, w6, w7, w8, hstatus, _, _, _, _, _⟩ :=
    createOrder_ok hwf hq hok
  have hpres : ∀ pid, presentOrdQty db' order.items pid = reqQty items pid := by
    intro pid
    rw [presentOrdQty_eq_ordQty w8 pid, w6 pid]
  obtain ⟨db'', hrel, hwf2, hq2, hex2, hres2⟩ := releaseItems_ok order.items db' w1 w7
    (fun pid => by
      rw [hpres pid, w4 pid]
      have := reservedOf_nonneg hwf pid
      omega)
    (fun pid hpos => by
      rw [hpres pid] at hpos
      exact (w5 pid hpos).1)
  have hstep := @updateOrder_cancel_eq db' order tn
    (by rw [hstatus]; intro h; exact OrderStatus.noConfusion h)
  have hupd : updateOrder db' order
      { status := some OrderStatus.cancelled, trackingNumber := tn } =
        (db'', Except.ok (applyUpdates order
          { status := some OrderStatus.cancelled, trackingNumber := tn })) := by
    rw [hstep, hrel]
  refine ⟨⟨db'', applyUpdates order
      { status := some OrderStatus.cancelled, trackingNumber := tn }, hupd, ?_, ?_, ?_, ?_⟩, ?_⟩
  · cases tn <;> rfl
  · intro pid
    rw [hres2 pid, hpres pid, w4 pid]
    omega
  · intro pid
    rw [availableOf_wf hwf2 pid, hq2 pid, w2 pid, hres2 pid, hpres pid, w4 pid,
        availableOf_wf hwf pid]
    have heq : reservedOf db pid + reqQty items pid - reqQty items pid =
        reservedOf db pid := by
      omega
    rw [heq]
  · intro pid
    rw [hq2 pid, w2 pid]
  · intro dbx o h
    exact updateOrder_same_status h.symm

/-- C2 witness data: a fresh product and a single-item order request. -/
def dbC2w : DB :=
  [{ id := 1, name := "Widget", price := 10,
     inventory := { quantity := 10, reserved := 0, available := 10 } }]

def itemsC2w : List ReqItem := [{ product := 1, quantity := 3, variant := none }]

/-- The concrete createOrder run of the C2 witness and its two outputs. -/
def createC2w : DB × Except ControllerError Order :=
  createOrder dbC2w 7 100 itemsC2w ("standard") none

def dbC2w' : DB := createC2w.1

def orderC2w : Order :=
  match createC2w.2 with
  | Except.ok o => o
  | Except.error _ => orderC2

/-- Witness for the amended C2 at a concrete create-then-cancel run. -/
theorem cancel_restores_and_direct_recancel_noop_witness :
    (∃ db'' o', updateOrder dbC2w' orderC2w
        { status := some OrderStatus.cancelled, trackingNumber := none } =
          (db'', Except.ok o') ∧
       o'.status = OrderStatus.cancelled ∧
       (∀ pid, reservedOf db'' pid = reservedOf dbC2w pid) ∧
       (∀ pid, availableOf db'' pid = availableOf dbC2w pid) ∧
       (∀ pid, quantityOf db'' pid = quantityOf dbC2w pid)) ∧
    (∀ (dbx : DB) (o : Order), o.status = OrderStatus.cancelled →
       updateOrder dbx o { status := some OrderStatus.cancelled, trackingNumber := none } =
         (dbx, Except.ok (applyUpdates o
           { status := some OrderStatus.cancelled, trackingNumber := none }))) :=
  cancel_restores_and_direct_recancel_noop dbC2w dbC2w' 7 100 itemsC2w ("standard")
    none orderC2w none (by decide) (by decide) rfl

/-! ### Claim C3 and helpers for per-item hypotheses -/

theorem ordQty_pos_exists {l : List OrderItem} {pid : Nat}
    (h : 0 < ordQty l pid) : ∃ it ∈ l, it.product = pid := by
  induction l with
  | nil => rw [ordQty_nil] at h; omega
  | cons it l ih =>
    rw [ordQty_cons] at h
    by_cases hp : it.product = pid
    · exact ⟨it, by simp, hp⟩
    · rw [if_neg hp] at h
      obtain ⟨j, hj, hjp⟩ := ih (by omega)
      exact ⟨j, by simp [hj], hjp⟩

theorem presentOrdQty_pos_exists {db : DB} {l : List OrderItem} {pid : Nat}
    (h : 0 < presentOrdQty db l pid) : ∃ it ∈ l, it.product = pid := by
  unfold presentOrdQty at h
  obtain ⟨it, hit, hp⟩ := ordQty_pos_exists h
  exact ⟨it, List.mem_of_mem_filter hit, hp⟩

theorem presentOrdQty_le_ordQty {db : DB} {l : List OrderItem}
    (hq : ∀ it ∈ l, 0 ≤ it.quantity) (pid : Nat) :
    presentOrdQty db l pid ≤ ordQty l pid := by
  induction l with
  | nil => rw [presentOrdQty_nil, ordQty_nil]
  | cons it l ih =>
    rw [presentOrdQty_cons, ordQty_cons]
    have hrest := ih (fun j hj => hq j (by simp [hj]))
    have h1 : 0 ≤ it.quantity := hq it (by simp)
    by_cases hex : existsIn db it.product
    · rw [if_pos hex]
      omega
    · rw [if_neg hex]
      by_cases hp : it.product = pid
      · rw [if_pos hp]
        omega
      · rw [if_neg hp]
        omega

/-- From per-item bounds (decidable at concrete inputs) to the per-product
bounds that the release/consume loop lemmas consume. -/
theorem perItem_to_perPid {db : DB} {l : List OrderItem}
    (hwf : DBWF db)
    (hq : ∀ it ∈ l, 1 ≤ it.quantity)
    (hres : ∀ it ∈ l, presentOrdQty db l it.product ≤ reservedOf db it.product)
    (hqt : ∀ it ∈ l, reservedOf db it.product ≤ quantityOf db it.product) :
    (∀ pid, presentOrdQty db l pid ≤ reservedOf db pid) ∧
    (∀ pid, 0 < presentOrdQty db l pid → reservedOf db pid ≤ quantityOf db pid) := by
  have hq0 : ∀ it ∈ l, (0 : Int) ≤ it.quantity := fun j hj => by have := hq j hj; omega
  constructor
  · intro pid
    rcases lt_or_le 0 (presentOrdQty db l pid) with hpos | hle
    · obtain ⟨it, hit, rfl⟩ := presentOrdQty_pos_exists hpos
      exact hres it hit
    · have := reservedOf_nonneg hwf pid
      have := @presentOrdQty_nonneg db l hq0 pid
      omega
  · intro pid hpos
    obtain ⟨it, hit, rfl⟩ := presentOrdQty_pos_exists hpos
    exact hqt it hit

/-- C3: during order creation, reservation of a found product fails with the
`Insufficient inventory` message exactly when the stored `available` is below
the requested quantity; and for every accepted order, every product's
`reserved` counter rises by exactly the total ordered quantity while
`available` falls by the same amount and `quantity` is unchanged. -/
theorem reserve_iff_available_and_accepted_moves_counters
    (db db' : DB) (uid oid : Nat) (items : List ReqItem) (sm : String)
    (notes : Option String) (order : Order)
    (hwf : DBWF db) (hq : ∀ it ∈ items, 1 ≤ it.quantity)
    (hok : createOrder db uid oid items sm notes = (db', Except.ok order)) :
    (∀ (s : ScanState) (it : ReqItem) (p : Product),
      findById s.db it.product = some p →
      (((scanStep s it).1.errorMessages = s.errorMessages ++
          ["Insufficient inventory for product: " ++ p.name]) ↔
        p.inventory.available < it.quantity)) ∧
    (∀ pid, reservedOf db' pid = reservedOf db pid + reqQty items pid) ∧
    (∀ pid, availableOf db' pid = availableOf db pid - reqQty items pid) ∧
    (∀ pid, quantityOf db' pid = quantityOf db pid) := by
  obtain ⟨w1, w2, w3, w4, w5, _, _, _, _, _, _, _, _, _⟩ := createOrder_ok hwf hq hok
  refine ⟨?_, w4, ?_, w2⟩
  · intro s it p hfind
    constructor
    · intro heq
      by_contra hlt
      unfold scanStep at heq
      rw [hfind] at heq
      dsimp only at heq
      rw [if_neg hlt] at heq
      split at heq
      · simp at heq
      · simp at heq
    · intro hlt
      unfold scanStep
      rw [hfind]
      dsimp only
      rw [if_pos hlt]
  · intro pid
    have hk0 : 0 ≤ reqQty items pid :=
      reqQty_nonneg (fun j hj => by have := hq j hj; omega) pid
    rw [availableOf_wf w1 pid, availableOf_wf hwf pid, w2 pid, w4 pid]
    rcases eq_or_lt_of_le hk0 with h0 | hpos
    · omega
    · have hcond := (w5 pid hpos).1
      rw [w2 pid, w4 pid] at hcond
      omega

/-- C3 witness data: the spec example, a product with quantity 100 and no
reservations, ordered 3 units. -/
def dbC3 : DB :=
  [{ id := 1, name := "Widget", price := 10,
     inventory := { quantity := 100, reserved := 0, available := 100 } }]

def itemsC3 : List ReqItem := [{ product := 1, quantity := 3, variant := none }]

def createC3 : DB × Except ControllerError Order :=
  createOrder dbC3 7 100 itemsC3 ("standard") none

def dbC3' : DB := createC3.1

def orderC3 : Order :=
  match createC3.2 with
  | Except.ok o => o
  | Except.error _ => orderC2

/-- Witness for C3 at the spec's example: ordering 3 of 100 leaves
reserved 3 and available 97. -/
theorem reserve_iff_available_and_accepted_moves_counters_witness :
    ((∀ (s : ScanState) (it : ReqItem) (p : Product),
      findById s.db it.product = some p →
      (((scanStep s it).1.errorMessages = s.errorMessages ++
          ["Insufficient inventory for product: " ++ p.name]) ↔
        p.inventory.available < it.quantity)) ∧
    (∀ pid, reservedOf dbC3' pid = reservedOf dbC3 pid + reqQty itemsC3 pid) ∧
    (∀ pid, availableOf dbC3' pid = availableOf dbC3 pid - reqQty itemsC3 pid) ∧
    (∀ pid, quantityOf dbC3' pid = quantityOf dbC3 pid)) ∧
    reservedOf dbC3' 1 = 3 ∧ availableOf dbC3' 1 = 97 ∧ quantityOf dbC3' 1 = 100 :=
  ⟨reserve_iff_available_and_accepted_moves_counters dbC3 dbC3' 7 100 itemsC3
      ("standard") none orderC3 (by decide) (by decide) rfl,
    by decide, by decide, by decide⟩

/-! ### Claim C4 -/

/-- C4: updating an order to `shipped` (from any other status, with every
referenced product present and the counters covering the order) commits the
prior reservation: each referenced product's `quantity` and `reserved` both
drop by the ordered quantity while `available` is unchanged. -/
theorem ship_commits_reservation
    (db : DB) (order : Order) (tn : Option String)
    (hwf : DBWF db)
    (hst : ¬ order.status = OrderStatus.shipped)
    (hq : ∀ it ∈ order.items, 1 ≤ it.quantity)
    (hex : ∀ it ∈ order.items, existsIn db it.product = true)
    (hres : ∀ it ∈ order.items, ordQty order.items it.product ≤ reservedOf db it.product)
    (hqt : ∀ it ∈ order.items, reservedOf db it.product ≤ quantityOf db it.product) :
    ∃ db' o', updateOrder db order
        { status := some OrderStatus.shipped, trackingNumber := tn } =
          (db', Except.ok o') ∧
      o'.status = OrderStatus.shipped ∧
      (∀ pid, quantityOf db' pid = quantityOf db pid - ordQty order.items pid) ∧
      (∀ pid, reservedOf db' pid = reservedOf db pid - ordQty order.items pid) ∧
      (∀ pid, availableOf db' pid = availableOf db pid) := by
  have hpres : ∀ pid, presentOrdQty db order.items pid = ordQty order.items pid :=
    presentOrdQty_eq_ordQty hex
  obtain ⟨hresP, hqtP⟩ := perItem_to_perPid hwf hq
    (fun it hit => by rw [hpres it.product]; exact hres it hit) hqt
  obtain ⟨db', hcons, hwf2, hq2, hex2, hres2⟩ :=
    consumeItems_ok order.items db hwf hq hresP hqtP
  have hstep := @updateOrder_shipped_eq db order tn hst
  have hupd : updateOrder db order
      { status := some OrderStatus.shipped, trackingNumber := tn } =
        (db', Except.ok (applyUpdates order
          { status := some OrderStatus.shipped, trackingNumber := tn })) := by
    rw [hstep, hcons]
  refine ⟨db', applyUpdates order
      { status := some OrderStatus.shipped, trackingNumber := tn }, hupd, ?_, ?_, ?_, ?_⟩
  · cases tn <;> rfl
  · intro pid
    rw [hq2 pid, hpres pid]
  · intro pid
    rw [hres2 pid, hpres pid]
  · intro pid
    rw [availableOf_wf hwf2 pid, availableOf_wf hwf pid, hq2 pid, hres2 pid, hpres pid]
    omega

/-- C4 witness data: the spec example mid-flight — quantity 100 with 3
reserved, then the 3-unit order ships: quantity 97, reserved 0, available
97 before and after. -/
def dbC4 : DB :=
  [{ id := 1, name := "Widget", price := 10,
     inventory := { quantity := 100, reserved := 3, available := 97 } }]

def orderC4 : Order :=
  { id := 100, user := 7,
    items := [{ product := 1, name := "Widget", price := 10, quantity := 3, variant := none }],
    shippingMethod := "standard", shippingCost := 5.99, subtotal := 30, tax := 2.1,
    totalAmount := 38.09, status := OrderStatus.processing,
    paymentStatus := PaymentStatus.paid, paymentDetails := none,
    trackingNumber := none, notes := none }

/-- Witness for C4 at the spec example. -/
theorem ship_commits_reservation_witness :
    ∃ db' o', updateOrder dbC4 orderC4
        { status := some OrderStatus.shipped, trackingNumber := none } =
          (db', Except.ok o') ∧
      o'.status = OrderStatus.shipped ∧
      (∀ pid, quantityOf db' pid = quantityOf dbC4 pid - ordQty orderC4.items pid) ∧
      (∀ pid, reservedOf db' pid = reservedOf dbC4 pid - ordQty orderC4.items pid) ∧
      (∀ pid, availableOf db' pid = availableOf dbC4 pid) :=
  ship_commits_reservation dbC4 orderC4 none (by decide) (by decide) (by decide)
    (by decide) (by decide) (by decide)

/-! ### Claim C5 -/

/-- C5 counterexample data: a product with reserved 2 and a pending order
asking to release 5. -/
def dbC5 : DB :=
  [{ id := 1, name := "Widget", price := 10,
     inventory := { quantity := 10, reserved := 2, available := 8 } }]

def orderC5 : Order :=
  { id := 100, user := 7,
    items := [{ product := 1, name := "Widget", price := 10, quantity := 5, variant := none }],
    shippingMethod := "standard", shippingCost := 5.99, subtotal := 50, tax := 3.5,
    totalAmount := 59.49, status := OrderStatus.pending,
    paymentStatus := PaymentStatus.pending, paymentDetails := none,
    trackingNumber := none, notes := none }

/-- C5 counterexample: releasing more than is reserved does not clamp
reserved at 0.  Deleting (or cancelling) the pending 5-unit order against
reserved 2 drives the in-memory reserved negative, the save fails schema
validation, the operation errors out, and the stored reserved stays 2 —
not the claimed max(0, 2 − 5) = 0. -/
theorem release_no_clamp_counterexample :
    orderC5.status = OrderStatus.pending ∧
    ordQty orderC5.items 1 = 5 ∧
    reservedOf dbC5 1 = 2 ∧
    (deleteOrder dbC5 orderC5).2.isOk = false ∧
    reservedOf (deleteOrder dbC5 orderC5).1 1 = 2 ∧
    ¬ reservedOf (deleteOrder dbC5 orderC5).1 1 = max 0 (reservedOf dbC5 1 - 5) ∧
    (updateOrder dbC5 orderC5
      { status := some OrderStatus.cancelled, trackingNumber := none }).2.isOk = false ∧
    reservedOf (updateOrder dbC5 orderC5
      { status := some OrderStatus.cancelled, trackingNumber := none }).1 1 = 2 := by
  decide

/-- C5 (amended): the release step shared by the cancellation branch of
`updateOrder` and by `deleteOrder` subtracts without clamping: when
`quantity ≤ reserved` (and the recomputed available stays non-negative) the
stored reserved becomes `reserved − quantity`, which only coincidentally
equals `max 0 (reserved − quantity)`; when `quantity > reserved` the save
fails the schema's `min: 0` validation, the loop stops with an error and the
stored reserved is unchanged — never clamped to 0. -/
theorem release_subtracts_without_clamp
    (db : DB) (item : OrderItem) (p : Product)
    (hwf : DBWF db)
    (hfind : findById db item.product = some p) :
    (item.quantity ≤ p.inventory.reserved →
     p.inventory.reserved - item.quantity ≤ p.inventory.quantity →
      ∃ db', releaseItems db [item] = (db', none) ∧
        reservedOf db' item.product = p.inventory.reserved - item.quantity ∧
        reservedOf db' item.product = max 0 (p.inventory.reserved - item.quantity)) ∧
    (p.inventory.reserved < item.quantity →
      releaseItems db [item] = (db, some (ControllerError.docValidation p.name)) ∧
      reservedOf db item.product = p.inventory.reserved) := by
  have hinv := DBWF_findById hwf hfind
  have hpid : p.id = item.product := findById_id hfind
  constructor
  · intro h1 h2
    have hv : invValid ({ p with inventory :=
        { p.inventory with
            reserved := p.inventory.reserved - item.quantity,
            available := p.inventory.quantity -
              (p.inventory.reserved - item.quantity) } } : Product).inventory := by
      refine ⟨hinv.1, ?_, ?_⟩
      · show (0 : Int) ≤ p.inventory.reserved - item.quantity
        omega
      · show (0 : Int) ≤ p.inventory.quantity - (p.inventory.reserved - item.quantity)
        omega
    have hstep : releaseItems db [item] =
        (storeProduct db (applyPreSave { p with inventory :=
          { p.inventory with
              reserved := p.inventory.reserved - item.quantity,
              available := p.inventory.quantity -
                (p.inventory.reserved - item.quantity) } }), none) := by
      simp only [releaseItems]
      rw [hfind]
      dsimp only
      rw [productSave_of_valid hv]
    have hsid : (applyPreSave { p with inventory :=
        { p.inventory with
            reserved := p.inventory.reserved - item.quantity,
            available := p.inventory.quantity -
              (p.inventory.reserved - item.quantity) } }).id = item.product := hpid
    have hfind1 : findById db (applyPreSave { p with inventory :=
        { p.inventory with
            reserved := p.inventory.reserved - item.quantity,
            available := p.inventory.quantity -
              (p.inventory.reserved - item.quantity) } }).id = some p := by
      rw [hsid]
      exact hfind
    have hself : reservedOf (storeProduct db (applyPreSave { p with inventory :=
        { p.inventory with
            reserved := p.inventory.reserved - item.quantity,
            available := p.inventory.quantity -
              (p.inventory.reserved - item.quantity) } })) item.product
        = p.inventory.reserved - item.quantity := by
      rw [← hsid, reservedOf_storeProduct_self hfind1]
      rfl
    refine ⟨_, hstep, hself, ?_⟩
    rw [hself]
    omega
  · intro hlt
    have hv : ¬ invValid ({ p with inventory :=
        { p.inventory with
            reserved := p.inventory.reserved - item.quantity,
            available := p.inventory.quantity -
              (p.inventory.reserved - item.quantity) } } : Product).inventory := by
      intro hcontra
      have h2 := hcontra.2.1
      dsimp only at h2
      omega
    constructor
    · simp only [releaseItems]
      rw [hfind]
      dsimp only
      rw [productSave_of_invalid hv]
    · exact reservedOf_eq_of_findById hfind

/-- C5 witness data: releasing 3 of 5 reserved units. -/
def dbC5w : DB :=
  [{ id := 1, name := "Widget", price := 10,
     inventory := { quantity := 10, reserved := 5, available := 5 } }]

def itemC5w : OrderItem :=
  { product := 1, name := "Widget", price := 10, quantity := 3, variant := none }

/-- Witness for the amended C5 at a concrete release. -/
theorem release_subtracts_without_clamp_witness :
    ((itemC5w.quantity ≤ (5 : Int) →
     (5 : Int) - itemC5w.quantity ≤ (10 : Int) →
      ∃ db', releaseItems dbC5w [itemC5w] = (db', none) ∧
        reservedOf db' itemC5w.product = (5 : Int) - itemC5w.quantity ∧
        reservedOf db' itemC5w.product = max 0 ((5 : Int) - itemC5w.quantity)) ∧
    ((5 : Int) < itemC5w.quantity →
      releaseItems dbC5w [itemC5w] = (dbC5w, some (ControllerError.docValidation ("Widget"))) ∧
      reservedOf dbC5w itemC5w.product = (5 : Int))) ∧
    reservedOf (releaseItems dbC5w [itemC5w]).1 1 = 2 :=
  ⟨release_subtracts_without_clamp dbC5w itemC5w
      { id := 1, name := "Widget", price := 10,
        inventory := { quantity := 10, reserved := 5, available := 5 } }
      (by decide) (by decide),
   by decide⟩

/-! ### Claim C7 -/

/-- C7 counterexample data: a pending order whose release would drive the
referenced product's reserved negative. -/
def dbC7 : DB :=
  [{ id := 1, name := "Widget", price := 10,
     inventory := { quantity := 10, reserved := 1, available := 9 } }]

def orderC7 : Order :=
  { id := 100, user := 7,
    items := [{ product := 1, name := "Widget", price := 10, quantity := 5, variant := none }],
    shippingMethod := "standard", shippingCost := 5.99, subtotal := 50, tax := 3.5,
    totalAmount := 59.49, status := OrderStatus.pending,
    paymentStatus := PaymentStatus.pending, paymentDetails := none,
    trackingNumber := none, notes := none }

/-- C7 counterexample: deletion does not succeed for every pending order.
This pending order's release fails schema validation (reserved 1 − 5 < 0),
so `deleteOrder` errors although the status is `pending`, refuting the
claimed if-and-only-if. -/
theorem delete_pending_can_fail_counterexample :
    orderC7.status = OrderStatus.pending ∧
    (deleteOrder dbC7 orderC7).2.isOk = false ∧
    reservedOf (deleteOrder dbC7 orderC7).1 1 = 1 := by
  decide

/-- C7 (amended): deleting a non-pending order fails with the 400
`Only pending orders can be deleted` error and changes nothing; deleting a
pending order whose existing referenced products have enough reserved (and
reserved ≤ quantity) succeeds, releasing every present line item's
reservation and removing the order; a pending order whose release would
drive a reserved counter negative instead fails mid-way (see the
counterexample). -/
theorem delete_only_pending
    (db : DB) (order : Order)
    (hwf : DBWF db)
    (hq : ∀ it ∈ order.items, 1 ≤ it.quantity)
    (hres : ∀ it ∈ order.items,
      presentOrdQty db order.items it.product ≤ reservedOf db it.product)
    (hqt : ∀ it ∈ order.items, reservedOf db it.product ≤ quantityOf db it.product) :
    (¬ order.status = OrderStatus.pending →
      deleteOrder db order =
        (db, Except.error (ControllerError.api 400
          ("Only pending orders can be deleted") []))) ∧
    (order.status = OrderStatus.pending →
      ∃ db', deleteOrder db order = (db', Except.ok ()) ∧ DBWF db' ∧
        (∀ pid, reservedOf db' pid =
          reservedOf db pid - presentOrdQty db order.items pid) ∧
        (∀ pid, quantityOf db' pid = quantityOf db pid) ∧
        (∀ pid, availableOf db' pid = max 0 (quantityOf db pid -
          (reservedOf db pid - presentOrdQty db order.items pid))) ∧
        (∀ pid, existsIn db' pid = existsIn db pid)) := by
  constructor
  · intro hst
    exact deleteOrder_nonpending_eq hst
  · intro hst
    obtain ⟨hresP, hqtP⟩ := perItem_to_perPid hwf hq hres hqt
    obtain ⟨db', hrel, hwf2, hq2, hex2, hres2⟩ :=
      releaseItems_ok order.items db hwf hq hresP hqtP
    have hdel : deleteOrder db order = (db', Except.ok ()) := by
      rw [deleteOrder_pending_eq hst, hrel]
    refine ⟨db', hdel, hwf2, hres2, hq2, ?_, hex2⟩
    intro pid
    rw [availableOf_wf hwf2 pid, hq2 pid, hres2 pid]

/-- C7 witness data: a deletable pending order. -/
def dbC7w : DB :=
  [{ id := 1, name := "Widget", price := 10,
     inventory := { quantity := 10, reserved := 3, available := 7 } }]

def orderC7w : Order :=
  { id := 100, user := 7,
    items := [{ product := 1, name := "Widget", price := 10, quantity := 3, variant := none }],
    shippingMethod := "standard", shippingCost := 5.99, subtotal := 30, tax := 2.1,
    totalAmount := 38.09, status := OrderStatus.pending,
    paymentStatus := PaymentStatus.pending, paymentDetails := none,
    trackingNumber := none, notes := none }

/-- Witness for the amended C7 at a concrete pending order. -/
theorem delete_only_pending_witness :
    ((¬ orderC7w.status = OrderStatus.pending →
      deleteOrder dbC7w orderC7w =
        (dbC7w, Except.error (ControllerError.api 400
          ("Only pending orders can be deleted") []))) ∧
    (orderC7w.status = OrderStatus.pending →
      ∃ db', deleteOrder dbC7w orderC7w = (db', Except.ok ()) ∧ DBWF db' ∧
        (∀ pid, reservedOf db' pid =
          reservedOf dbC7w pid - presentOrdQty dbC7w orderC7w.items pid) ∧
        (∀ pid, quantityOf db' pid = quantityOf dbC7w pid) ∧
        (∀ pid, availableOf db' pid = max 0 (quantityOf dbC7w pid -
          (reservedOf dbC7w pid - presentOrdQty dbC7w orderC7w.items pid))) ∧
        (∀ pid, existsIn db' pid = existsIn dbC7w pid))) ∧
    orderC7w.status = OrderStatus.pending ∧
    reservedOf (deleteOrder dbC7w orderC7w).1 1 = 0 ∧
    availableOf (deleteOrder dbC7w orderC7w).1 1 = 10 :=
  ⟨delete_only_pending dbC7w orderC7w (by decide) (by decide) (by decide) (by decide),
   by decide, by decide, by decide⟩

/-! ### Claim C6 -/

/-- C6: for every accepted order the totals satisfy the pricing rules:
subtotal is the sum of price × quantity over the items, shippingCost is the
fixed lookup (5.99 standard, 15.99 express, 29.99 overnight, any other
value falling back to standard's 5.99), tax is the subtotal × 0.07 rounded
to two decimals, and totalAmount = subtotal + shippingCost + tax; on the
spec's example, express with subtotal 40 gives 15.99, 2.80 and 58.79. -/
theorem order_totals_spec
    (db db' : DB) (uid oid : Nat) (items : List ReqItem) (sm : String)
    (notes : Option String) (order : Order)
    (hwf : DBWF db) (hq : ∀ it ∈ items, 1 ≤ it.quantity)
    (hok : createOrder db uid oid items sm notes = (db', Except.ok order)) :
    order.subtotal = itemsSubtotal order.items ∧
    order.shippingCost = calculateShippingCost sm ∧
    order.tax = calculateTax order.subtotal ∧
    order.totalAmount = order.subtotal + order.shippingCost + order.tax ∧
    calculateShippingCost ("standard") = (599 : Rat) / 100 ∧
    calculateShippingCost ("express") = (1599 : Rat) / 100 ∧
    calculateShippingCost ("overnight") = (2999 : Rat) / 100 ∧
    (∀ m : String, ¬ m = "express" → ¬ m = "overnight" →
      calculateShippingCost m = (599 : Rat) / 100) ∧
    (∀ x : Rat, calculateTax x = roundTo2 (x * (7 / 100))) ∧
    calculateTax 40 = (28 : Rat) / 10 ∧
    (40 : Rat) + calculateShippingCost ("express") + calculateTax 40 = (5879 : Rat) / 100 := by
  obtain ⟨_, _, _, _, _, _, _, _, _, _, h11, h12, h13, h14⟩ := createOrder_ok hwf hq hok
  have cst : calculateShippingCost ("standard") = (599 : Rat) / 100 := by
    unfold calculateShippingCost
    rw [if_neg (by decide), if_neg (by decide)]
    norm_num
  have cex : calculateShippingCost ("express") = (1599 : Rat) / 100 := by
    unfold calculateShippingCost
    rw [if_pos rfl]
    norm_num
  have cov : calculateShippingCost ("overnight") = (2999 : Rat) / 100 := by
    unfold calculateShippingCost
    rw [if_neg (by decide), if_pos rfl]
    norm_num
  have ctax : calculateTax 40 = (28 : Rat) / 10 := by
    unfold calculateTax roundTo2
    norm_num [round_eq]
  refine ⟨h11, h12, h13, h14, cst, cex, cov, ?_, fun _ => rfl, ctax, ?_⟩
  · intro m h1 h2
    unfold calculateShippingCost
    rw [if_neg h1, if_neg h2]
    norm_num
  · rw [cex, ctax]
    norm_num

/-- C6 witness data: two units of a 20-unit-price product shipped express. -/
def dbC6 : DB :=
  [{ id := 1, name := "Widget", price := 20,
     inventory := { quantity := 10, reserved := 0, available := 10 } }]

def itemsC6 : List ReqItem := [{ product := 1, quantity := 2, variant := none }]

def createC6 : DB × Except ControllerError Order :=
  createOrder dbC6 7 100 itemsC6 ("express") none

def orderC6 : Order :=
  match createC6.2 with
  | Except.ok o => o
  | Except.error _ => orderC2

/-- Witness for C6 at a concrete accepted order. -/
theorem order_totals_spec_witness :
    orderC6.subtotal = itemsSubtotal orderC6.items ∧
    orderC6.shippingCost = calculateShippingCost ("express") ∧
    orderC6.tax = calculateTax orderC6.subtotal ∧
    orderC6.totalAmount = orderC6.subtotal + orderC6.shippingCost + orderC6.tax ∧
    calculateShippingCost ("standard") = (599 : Rat) / 100 ∧
    calculateShippingCost ("express") = (1599 : Rat) / 100 ∧
    calculateShippingCost ("overnight") = (2999 : Rat) / 100 ∧
    (∀ m : String, ¬ m = "express" → ¬ m = "overnight" →
      calculateShippingCost m = (599 : Rat) / 100) ∧
    (∀ x : Rat, calculateTax x = roundTo2 (x * (7 / 100))) ∧
    calculateTax 40 = (28 : Rat) / 10 ∧
    (40 : Rat) + calculateShippingCost ("express") + calculateTax 40 = (5879 : Rat) / 100 :=
  order_totals_spec dbC6 createC6.1 7 100 itemsC6 ("express") none orderC6
    (by decide) (by decide) rfl

/-! ### Claim C9 -/

/-- C9 counterexample data: a stored product with 4 units reserved, and the
partial update that supplies only a new quantity. -/
def dbC9 : DB :=
  [{ id := 1, name := "Widget", price := 10,
     inventory := { quantity := 10, reserved := 4, available := 6 } }]

def updC9x : DB × Except ControllerError Product :=
  updateProduct dbC9 1 (some { quantity := 8, reserved := none, available := none })

/-- C9 counterexample: an update supplying only `quantity` breaks the
derived invariant.  The controller computes `available = max(0, 8 − 4) = 4`
against the stored reserved, but the `$set` subdocument replacement drops
`reserved` (it reads back as the schema default 0), so the persisted state
has `available = 4` while `max(0, quantity − reserved) = 8`. -/
theorem update_partial_inventory_breaks_invariant :
    updC9x.2.isOk = true ∧
    quantityOf updC9x.1 1 = 8 ∧
    reservedOf updC9x.1 1 = 0 ∧
    availableOf updC9x.1 1 = 4 ∧
    ¬ availableOf updC9x.1 1 =
        max 0 (quantityOf updC9x.1 1 - reservedOf updC9x.1 1) := by
  decide

/-- C9 (amended): every `save()` — product creation and the reservation,
release and consumption loops — persists
`available = max 0 (quantity − reserved)`, and the stored `available` is
always recomputed and never taken from caller input: `createProduct`
overwrites it at construction, and `updateProduct` recomputes it from the
effective quantity/reserved, ignoring any caller-sent `available`; when the
update supplies `reserved` the persisted state also satisfies the invariant.
The invariant does not survive an update that omits `reserved`: the `$set`
subdocument replacement resets the stored reserved to 0 while `available`
was computed against the previous value (see the counterexample). -/
theorem available_recomputed_except_partial_update :
    (∀ p q : Product, productSave p = some q →
      q.inventory.available = max 0 (q.inventory.quantity - q.inventory.reserved) ∧
      q.inventory.quantity = p.inventory.quantity ∧
      q.inventory.reserved = p.inventory.reserved) ∧
    (∀ (db : DB) (pid : Nat) (name : String) (price : Rat) (inv : InventoryInput)
        (db' : DB) (p' : Product),
      createProduct db pid name price inv = (db', Except.ok p') →
      p'.inventory.available =
        max 0 (p'.inventory.quantity - p'.inventory.reserved)) ∧
    (∀ (db : DB) (pid : Nat) (name : String) (price : Rat) (inv : InventoryInput)
        (a : Option Int),
      createProduct db pid name price
          { quantity := inv.quantity, reserved := inv.reserved, available := a } =
        createProduct db pid name price inv) ∧
    (∀ (db : DB) (pid : Nat) (u : InventoryUpdates) (db' : DB) (p' p0 : Product),
      findById db pid = some p0 →
      updateProduct db pid (some u) = (db', Except.ok p') →
      p'.inventory.available =
        max 0 (u.quantity - u.reserved.getD p0.inventory.reserved) ∧
      (∀ r : Int, u.reserved = some r →
        p'.inventory.available =
          max 0 (p'.inventory.quantity - p'.inventory.reserved))) ∧
    (∀ (db : DB) (pid : Nat) (u : InventoryUpdates) (a : Option Int),
      updateProduct db pid
          (some { quantity := u.quantity, reserved := u.reserved, available := a }) =
        updateProduct db pid (some u)) := by
  refine ⟨?_, ?_, ?_, ?_, ?_⟩
  · intro p q hsave
    by_cases hv : invValid p.inventory
    · rw [productSave_of_valid hv] at hsave
      injection hsave with h
      subst h
      exact ⟨rfl, rfl, rfl⟩
    · rw [productSave_of_invalid hv] at hsave
      exact Option.noConfusion hsave
  · intro db pid name price inv db' p' hcreate
    unfold createProduct at hcreate
    dsimp only at hcreate
    by_cases hv : invValid ({ id := pid, name := name, price := price, inventory :=
        { quantity := inv.quantity, reserved := inv.reserved.getD 0,
          available := inv.quantity - inv.reserved.getD 0 } } : Product).inventory
    · rw [productSave_of_valid hv] at hcreate
      dsimp only at hcreate
      have hp := congrArg Prod.snd hcreate
      dsimp only at hp
      injection hp with hp2
      subst hp2
      rfl
    · rw [productSave_of_invalid hv] at hcreate
      dsimp only at hcreate
      have hp := congrArg Prod.snd hcreate
      dsimp only at hp
      exact Except.noConfusion hp
  · intro db pid name price inv a
    rcases inv with ⟨q0, r0, a0⟩
    rfl
  · intro db pid u db' p' p0 hfind hupd
    unfold updateProduct at hupd
    rw [hfind] at hupd
    dsimp only at hupd
    by_cases hv : invValid ({ p0 with inventory :=
        { quantity := u.quantity, reserved := u.reserved.getD 0,
          available := max 0 (u.quantity -
            u.reserved.getD p0.inventory.reserved) } } : Product).inventory
    · rw [if_pos hv] at hupd
      have hp := congrArg Prod.snd hupd
      dsimp only at hp
      injection hp with hp2
      subst hp2
      refine ⟨rfl, ?_⟩
      intro r hr
      dsimp only
      simp only [hr, Option.getD_some]
    · rw [if_neg hv] at hupd
      have hp := congrArg Prod.snd hupd
      dsimp only at hp
      exact Except.noConfusion hp
  · intro db pid u a
    rcases u with ⟨q0, r0, a0⟩
    rfl

/-- C9 witness data: a save on a stale document, and a full inventory update
that supplies both counters. -/
def pC9 : Product :=
  { id := 1, name := "Widget", price := 10,
    inventory := { quantity := 10, reserved := 4, available := 99 } }

def updC9 : DB × Except ControllerError Product :=
  updateProduct dbC9 1 (some { quantity := 8, reserved := some 3, available := some 999 })

def pC9upd : Product :=
  match updC9.2 with
  | Except.ok p => p
  | Except.error _ => pC9

/-- Witness for the amended C9: a concrete save recomputes available, an
update supplying both counters restores the invariant, and the
caller-supplied available is ignored by both the create and update paths. -/
theorem available_recomputed_except_partial_update_witness :
    ((applyPreSave pC9).inventory.available =
      max 0 ((applyPreSave pC9).inventory.quantity -
        (applyPreSave pC9).inventory.reserved)) ∧
    (pC9upd.inventory.available =
      max 0 (pC9upd.inventory.quantity - pC9upd.inventory.reserved)) ∧
    createProduct [] 1 ("Widget") 10
        { quantity := 10, reserved := some 4, available := some 999 } =
      createProduct [] 1 ("Widget") 10
        { quantity := 10, reserved := some 4, available := none } ∧
    updateProduct dbC9 1
        (some { quantity := 8, reserved := some 3, available := some 999 }) =
      updateProduct dbC9 1
        (some { quantity := 8, reserved := some 3, available := none }) :=
  ⟨(available_recomputed_except_partial_update.1 pC9 (applyPreSave pC9) (by rfl)).1,
   (available_recomputed_except_partial_update.2.2.2.1 dbC9 1
      { quantity := 8, reserved := some 3, available := some 999 } updC9.1 pC9upd
      { id := 1, name := "Widget", price := 10,
        inventory := { quantity := 10, reserved := 4, available := 6 } }
      (by rfl) rfl).2 3 rfl,
   available_recomputed_except_partial_update.2.2.1 [] 1 ("Widget") 10
     { quantity := 10, reserved := some 4, available := none } (some 999),
   available_recomputed_except_partial_update.2.2.2.2 dbC9 1
     { quantity := 8, reserved := some 3, available := none } (some 999)⟩

/-! ### Claim C10 -/

/-- C10: when a line item's product no longer exists, the inventory step for
that item is silently skipped: cancelling or shipping such an order, and
deleting it while pending, still completes successfully, the missing
products stay untouched (and absent), and the existing products' counters
are still adjusted by exactly the present items' quantities. -/
theorem missing_products_skipped
    (db : DB) (order : Order) (tn : Option String)
    (hwf : DBWF db)
    (hq : ∀ it ∈ order.items, 1 ≤ it.quantity)
    (hmiss : ∃ it ∈ order.items, existsIn db it.product = false)
    (hres : ∀ it ∈ order.items,
      presentOrdQty db order.items it.product ≤ reservedOf db it.product)
    (hqt : ∀ it ∈ order.items, reservedOf db it.product ≤ quantityOf db it.product) :
    (¬ order.status = OrderStatus.cancelled →
      ∃ db' o', updateOrder db order
          { status := some OrderStatus.cancelled, trackingNumber := tn } =
            (db', Except.ok o') ∧
        (∀ pid, reservedOf db' pid =
          reservedOf db pid - presentOrdQty db order.items pid) ∧
        (∀ pid, quantityOf db' pid = quantityOf db pid) ∧
        (∀ it ∈ order.items, existsIn db it.product = false →
          existsIn db' it.product = false ∧
          reservedOf db' it.product = reservedOf db it.product)) ∧
    (¬ order.status = OrderStatus.shipped →
      ∃ db' o', updateOrder db order
          { status := some OrderStatus.shipped, trackingNumber := tn } =
            (db', Except.ok o') ∧
        (∀ pid, quantityOf db' pid =
          quantityOf db pid - presentOrdQty db order.items pid) ∧
        (∀ pid, reservedOf db' pid =
          reservedOf db pid - presentOrdQty db order.items pid) ∧
        (∀ it ∈ order.items, existsIn db it.product = false →
          existsIn db' it.product = false ∧
          reservedOf db' it.product = reservedOf db it.product ∧
          quantityOf db' it.product = quantityOf db it.product)) ∧
    (order.status = OrderStatus.pending →
      ∃ db', deleteOrder db order = (db', Except.ok ()) ∧
        (∀ pid, reservedOf db' pid =
          reservedOf db pid - presentOrdQty db order.items pid)) := by
  obtain ⟨hresP, hqtP⟩ := perItem_to_perPid hwf hq hres hqt
  have habsent : ∀ (db2 : DB) (pid : Nat),
      (∀ j, existsIn db2 j = existsIn db j) → existsIn db pid = false →
      presentOrdQty db order.items pid = 0 ∧ reservedOf db pid = 0 ∧
      quantityOf db pid = 0 ∧ reservedOf db2 pid = 0 ∧ quantityOf db2 pid = 0 := by
    intro db2 pid hex habs
    have hnone : findById db pid = none := existsIn_false_iff.1 habs
    have habs2 : findById db2 pid = none := by
      refine existsIn_false_iff.1 ?_
      rw [hex pid]
      exact habs
    refine ⟨?_, ?_, ?_, ?_, ?_⟩
    · rcases lt_or_le 0 (presentOrdQty db order.items pid) with hpos | hle
      · obtain ⟨it, hit, rfl⟩ := presentOrdQty_pos_exists hpos
        have := hres it hit
        have hq0 : ∀ j ∈ order.items, (0 : Int) ≤ j.quantity :=
          fun j hj => by have := hq j hj; omega
        have h0 := @presentOrdQty_nonneg db order.items hq0 it.product
        unfold reservedOf at this
        rw [hnone] at this
        simp at this
        omega
      · have hq0 : ∀ j ∈ order.items, (0 : Int) ≤ j.quantity :=
          fun j hj => by have := hq j hj; omega
        have h0 := @presentOrdQty_nonneg db order.items hq0 pid
        omega
    · unfold reservedOf
      rw [hnone]
      rfl
    · unfold quantityOf
      rw [hnone]
      rfl
    · unfold reservedOf
      rw [habs2]
      rfl
    · unfold quantityOf
      rw [habs2]
      rfl
  refine ⟨?_, ?_, ?_⟩
  · intro hst
    obtain ⟨db', hrel, hwf2, hq2, hex2, hres2⟩ :=
      releaseItems_ok order.items db hwf hq hresP hqtP
    have hupd : updateOrder db order
        { status := some OrderStatus.cancelled, trackingNumber := tn } =
          (db', Except.ok (applyUpdates order
            { status := some OrderStatus.cancelled, trackingNumber := tn })) := by
      rw [updateOrder_cancel_eq hst, hrel]
    refine ⟨db', _, hupd, hres2, hq2, ?_⟩
    intro it hit habs
    obtain ⟨hp0, hr0, hq0, hr2, hq2b⟩ := habsent db' it.product hex2 habs
    refine ⟨by rw [hex2 it.product]; exact habs, ?_⟩
    rw [hres2 it.product, hp0]
    omega
  · intro hst
    obtain ⟨db', hcons, hwf2, hq2, hex2, hres2⟩ :=
      consumeItems_ok order.items db hwf hq hresP hqtP
    have hupd : updateOrder db order
        { status := some OrderStatus.shipped, trackingNumber := tn } =
          (db', Except.ok (applyUpdates order
            { status := some OrderStatus.shipped, trackingNumber := tn })) := by
      rw [updateOrder_shipped_eq hst, hcons]
    refine ⟨db', _, hupd, hq2, hres2, ?_⟩
    intro it hit habs
    obtain ⟨hp0, hr0, hq0, hr2, hq2b⟩ := habsent db' it.product hex2 habs
    refine ⟨by rw [hex2 it.product]; exact habs, ?_, ?_⟩
    · rw [hres2 it.product, hp0]
      omega
    · rw [hq2 it.product, hp0]
      omega
  · intro hst
    obtain ⟨db', hrel, hwf2, hq2, hex2, hres2⟩ :=
      releaseItems_ok order.items db hwf hq hresP hqtP
    have hdel : deleteOrder db order = (db', Except.ok ()) := by
      rw [deleteOrder_pending_eq hst, hrel]
    exact ⟨db', hdel, hres2⟩

/-- C10 witness data: a pending two-item order whose second product is
missing from the collection. -/
def dbC10 : DB :=
  [{ id := 1, name := "Widget", price := 10,
     inventory := { quantity := 10, reserved := 3, available := 7 } }]

def orderC10 : Order :=
  { id := 100, user := 7,
    items := [{ product := 1, name := "Widget", price := 10, quantity := 3, variant := none },
              { product := 2, name := "Gadget", price := 4, quantity := 2, variant := none }],
    shippingMethod := "standard", shippingCost := 5.99, subtotal := 38, tax := 2.66,
    totalAmount := 46.65, status := OrderStatus.pending,
    paymentStatus := PaymentStatus.pending, paymentDetails := none,
    trackingNumber := none, notes := none }

/-- Witness for C10: the missing product 2 is skipped while product 1 is
still adjusted, for cancellation, shipping and deletion alike. -/
theorem missing_products_skipped_witness :
    ((¬ orderC10.status = OrderStatus.cancelled →
      ∃ db' o', updateOrder dbC10 orderC10
          { status := some OrderStatus.cancelled, trackingNumber := none } =
            (db', Except.ok o') ∧
        (∀ pid, reservedOf db' pid =
          reservedOf dbC10 pid - presentOrdQty dbC10 orderC10.items pid) ∧
        (∀ pid, quantityOf db' pid = quantityOf dbC10 pid) ∧
        (∀ it ∈ orderC10.items, existsIn dbC10 it.product = false →
          existsIn db' it.product = false ∧
          reservedOf db' it.product = reservedOf dbC10 it.product)) ∧
    (¬ orderC10.status = OrderStatus.shipped →
      ∃ db' o', updateOrder dbC10 orderC10
          { status := some OrderStatus.shipped, trackingNumber := none } =
            (db', Except.ok o') ∧
        (∀ pid, quantityOf db' pid =
          quantityOf dbC10 pid - presentOrdQty dbC10 orderC10.items pid) ∧
        (∀ pid, reservedOf db' pid =
          reservedOf dbC10 pid - presentOrdQty dbC10 orderC10.items pid) ∧
        (∀ it ∈ orderC10.items, existsIn dbC10 it.product = false →
          existsIn db' it.product = false ∧
          reservedOf db' it.product = reservedOf dbC10 it.product ∧
          quantityOf db' it.product = quantityOf dbC10 it.product)) ∧
    (orderC10.status = OrderStatus.pending →
      ∃ db', deleteOrder dbC10 orderC10 = (db', Except.ok ()) ∧
        (∀ pid, reservedOf db' pid =
          reservedOf dbC10 pid - presentOrdQty dbC10 orderC10.items pid))) ∧
    existsIn dbC10 2 = false ∧
    reservedOf (deleteOrder dbC10 orderC10).1 1 = 0 ∧
    (deleteOrder dbC10 orderC10).2.isOk = true :=
  ⟨missing_products_skipped dbC10 orderC10 none (by decide) (by decide)
      ⟨{ product := 2, name := "Gadget", price := 4, quantity := 2, variant := none },
        by decide, by decide⟩ (by decide) (by decide),
   by decide, by decide, by decide⟩

end ECom
